import Mathlib

/-!
Shallow embedding of the poly symmetry algorithm (polySymmetry.cpp).

The algorithm traverses the topology of a polygon mesh to calculate the
symmetry of its components: a breadth-first worklist over symmetric edge
pairs populates a symmetry table (partner indices plus examined flags for
vertices, edges, faces), then a two-phase flood fill classifies every
vertex as LEFT (1), RIGHT (-1) or CENTER (0), and finally edge and face
sides are derived from the vertex sides.

Component indices are `Int`, as in the C++ source, with `-1` the
"unresolved" sentinel.  Arrays are Lean lists; the C++ raw indexing
(undefined behaviour when out of bounds) is modelled by `getI` / `setI`,
which return a default / leave the list unchanged on an out-of-range
index.  The theorems below carry explicit range hypotheses so that the
out-of-range modelling choice is never load bearing; the side classifier
additionally has a fully bounds-checked variant returning `Option`, used
for the memory-safety claim.

Worklist loops are modelled with explicit fuel; top-level entry points
supply fuel that is proved sufficient (see the termination theorem for
the propagation engine).
-/

namespace PolySymmetry

/-- Read `l[i]` for an `Int` index, as the C++ `vector` indexing does;
out-of-range reads (undefined behaviour in C++) yield the default `d`. -/
def getI {α : Type} (l : List α) (d : α) (i : Int) : α :=
  if 0 ≤ i then l.getD i.toNat d else d

/-- Write `l[i] := v` for an `Int` index; out-of-range writes (undefined
behaviour in C++) leave the list unchanged. -/
def setI {α : Type} (l : List α) (i : Int) (v : α) : List α :=
  if 0 ≤ i then l.set i.toNat v else l

/-- Modelled from the spec: per-vertex topology record of the Mesh
Topology Store (`meshData.h` is not part of the core source): connected
vertex indices, connected edge indices, and for each incident face the
face-local neighboring ("sibling") vertices, indexed by face. -/
structure VertexData where
  connectedVertices : List Int
  connectedEdges : List Int
  faceVertexSiblings : List (List Int)
  deriving Repr, DecidableEq

/-- Modelled from the spec: per-edge topology record: exactly two
connected vertex indices and the connected face indices. -/
structure EdgeData where
  connectedVertices : Int × Int
  connectedFaces : List Int
  deriving Repr, DecidableEq

/-- Modelled from the spec: per-face topology record: connected vertex
indices and connected edge indices, in face-loop order. -/
structure FaceData where
  connectedVertices : List Int
  connectedEdges : List Int
  deriving Repr, DecidableEq

/-- Default vertex record used for an out-of-range `vertexData` read. -/
def defVD : VertexData := ⟨[], [], []⟩

/-- Default edge record used for an out-of-range `edgeData` read. -/
def defED : EdgeData := ⟨(-1, -1), []⟩

/-- Default face record used for an out-of-range `faceData` read. -/
def defFD : FaceData := ⟨[], []⟩

/-- Modelled from the spec: the read-only Mesh Topology Store consumed by
the core (component counts and indexed adjacency). -/
structure MeshData where
  numberOfVertices : Nat
  numberOfEdges : Nat
  numberOfFaces : Nat
  vertexData : List VertexData
  edgeData : List EdgeData
  faceData : List FaceData
  deriving Repr

/-- Modelled from the spec: the Seed Selection (`selection.h` is not part
of the core source): a pair of symmetric edges, the pair of faces adjacent
to them, a pair of symmetric vertices on those edges, and an optional
left-side vertex (`-1` when absent). -/
structure ComponentSelection where
  edgeIndices : Int × Int
  faceIndices : Int × Int
  vertexIndices : Int × Int
  leftVertexIndex : Int
  deriving Repr

/-- The mutable state of `PolySymmetryData`: examined flags, symmetry
partner indices and side labels for vertices, edges and faces, plus the
accumulated left-side seed vertices. -/
structure PolySymmetryData where
  examinedVertices : List Bool
  examinedEdges : List Bool
  examinedFaces : List Bool
  vertexSymmetryIndices : List Int
  edgeSymmetryIndices : List Int
  faceSymmetryIndices : List Int
  vertexSides : List Int
  edgeSides : List Int
  faceSides : List Int
  leftSideVertexIndices : List Int
  deriving Repr, DecidableEq

/-- Modelled from the spec: `intersection` from `util.h` (not in the core
source) returns the common elements of two index lists, in first-list
order ("the set intersection of faces adjacent to `e0` and faces adjacent
to `e1`"). -/
def intersection (a b : List Int) : List Int :=
  a.filter (fun x => b.contains x)

/-- `PolySymmetryData::reset`: fresh tables sized to the topology, all
flags false, all partner indices `-1`, all sides `-1`. -/
def reset (md : MeshData) : PolySymmetryData :=
  { examinedVertices := List.replicate md.numberOfVertices false
    examinedEdges := List.replicate md.numberOfEdges false
    examinedFaces := List.replicate md.numberOfFaces false
    vertexSymmetryIndices := List.replicate md.numberOfVertices (-1)
    edgeSymmetryIndices := List.replicate md.numberOfEdges (-1)
    faceSymmetryIndices := List.replicate md.numberOfFaces (-1)
    vertexSides := List.replicate md.numberOfVertices (-1)
    edgeSides := List.replicate md.numberOfEdges (-1)
    faceSides := List.replicate md.numberOfFaces (-1)
    leftSideVertexIndices := [] }

/-- `PolySymmetryData::markSymmetricalVertices`: record the mutual vertex
pairing and set both examined flags. -/
def markSymmetricalVertices (s : PolySymmetryData) (i0 i1 : Int) : PolySymmetryData :=
  { s with
    vertexSymmetryIndices := setI (setI s.vertexSymmetryIndices i0 i1) i1 i0
    examinedVertices := setI (setI s.examinedVertices i0 true) i1 true }

/-- `PolySymmetryData::markSymmetricalEdges`: record the mutual edge
pairing and set both examined flags. -/
def markSymmetricalEdges (s : PolySymmetryData) (i0 i1 : Int) : PolySymmetryData :=
  { s with
    edgeSymmetryIndices := setI (setI s.edgeSymmetryIndices i0 i1) i1 i0
    examinedEdges := setI (setI s.examinedEdges i0 true) i1 true }

/-- `PolySymmetryData::markSymmetricalFaces`: record the mutual face
pairing and set both examined flags. -/
def markSymmetricalFaces (s : PolySymmetryData) (i0 i1 : Int) : PolySymmetryData :=
  { s with
    faceSymmetryIndices := setI (setI s.faceSymmetryIndices i0 i1) i1 i0
    examinedFaces := setI (setI s.examinedFaces i0 true) i1 true }

/-- `PolySymmetryData::getUnexaminedFace`: the first face connected to the
edge that is not yet examined, or `-1`. -/
def getUnexaminedFace (md : MeshData) (s : PolySymmetryData) (edgeIndex : Int) : Int :=
  match (getI md.edgeData defED edgeIndex).connectedFaces.find?
      (fun f => !(getI s.examinedFaces false f)) with
  | some f => f
  | none => -1

/-- One iteration of the shared-faces scan in
`PolySymmetryData::getUnexaminedFaces`: skip examined faces, fill the
first then the second slot of the accumulator. -/
def getUnexaminedFacesScan (s : PolySymmetryData) (acc : Int × Int) (faceIndex : Int) : Int × Int :=
  if getI s.examinedFaces false faceIndex then acc
  else if acc.1 = -1 then (faceIndex, acc.2)
  else if acc.2 = -1 then (acc.1, faceIndex)
  else acc

/-- `PolySymmetryData::getUnexaminedFaces`: the pair of unexamined faces
adjacent to a symmetric edge pair — from the shared faces of the two edges
when they still share any, otherwise independently per edge. -/
def getUnexaminedFaces (md : MeshData) (s : PolySymmetryData) (edgePair : Int × Int) : Int × Int :=
  let sharedFaces := intersection
    (getI md.edgeData defED edgePair.1).connectedFaces
    (getI md.edgeData defED edgePair.2).connectedFaces
  if sharedFaces.length > 0 then
    sharedFaces.foldl (getUnexaminedFacesScan s) (-1, -1)
  else
    (getUnexaminedFace md s edgePair.1, getUnexaminedFace md s edgePair.2)

/-- `PolySymmetryData::getUnexaminedVertexSibling`: the first unexamined
face-local sibling of the vertex on the given face, or `-1`. -/
def getUnexaminedVertexSibling (md : MeshData) (s : PolySymmetryData)
    (vertexIndex faceIndex : Int) : Int :=
  match (getI (getI md.vertexData defVD vertexIndex).faceVertexSiblings [] faceIndex).find?
      (fun v => !(getI s.examinedVertices false v)) with
  | some v => v
  | none => -1

/-- Worklist loop of `PolySymmetryData::findSymmetricalVerticesOnFace`,
with explicit fuel: walk already-examined vertices of the first face,
pairing their unexamined siblings with the siblings of their partners on
the second face. -/
def findSymmetricalVerticesOnFaceLoop (md : MeshData) (facePair : Int × Int) :
    Nat → List Int → PolySymmetryData → PolySymmetryData
  | 0, _, s => s
  | _ + 1, [], s => s
  | fuel + 1, vertex0 :: q, s =>
    let vertex1 := getI s.vertexSymmetryIndices (-1) vertex0
    let nextVertex0 := getUnexaminedVertexSibling md s vertex0 facePair.1
    let nextVertex1 := getUnexaminedVertexSibling md s vertex1 facePair.2
    if nextVertex0 = -1 ∨ nextVertex1 = -1 then
      findSymmetricalVerticesOnFaceLoop md facePair fuel q s
    else
      findSymmetricalVerticesOnFaceLoop md facePair fuel (q ++ [nextVertex0])
        (markSymmetricalVertices s nextVertex0 nextVertex1)

/-- `PolySymmetryData::findSymmetricalVerticesOnFace`: seed the queue with
the already-examined vertices of the first face, then run the sibling
walk.  The fuel supplied covers the initial queue plus every vertex that
can still become examined. -/
def findSymmetricalVerticesOnFace (md : MeshData) (s : PolySymmetryData)
    (facePair : Int × Int) : PolySymmetryData :=
  let q0 := (getI md.faceData defFD facePair.1).connectedVertices.filter
    (fun v => getI s.examinedVertices false v)
  findSymmetricalVerticesOnFaceLoop md facePair
    (q0.length + s.examinedVertices.count false + 1) q0 s

/-- One iteration of `PolySymmetryData::findSymmetricalEdgesOnFace`: for
an unexamined edge of the face whose endpoint partners are both resolved,
find the unique edge shared by the two partner vertices; skip unless there
is exactly one; enqueue the pair when the found edge is unexamined; mark
the pair symmetric. -/
def findSymmetricalEdgesOnFaceStep (md : MeshData)
    (sq : PolySymmetryData × List (Int × Int)) (e : Int) :
    PolySymmetryData × List (Int × Int) :=
  let s := sq.1
  let q := sq.2
  if getI s.examinedEdges false e then sq
  else
    let vertex0 := getI s.vertexSymmetryIndices (-1)
      (getI md.edgeData defED e).connectedVertices.1
    let vertex1 := getI s.vertexSymmetryIndices (-1)
      (getI md.edgeData defED e).connectedVertices.2
    if vertex0 = -1 ∨ vertex1 = -1 then sq
    else
      let sharedEdges := intersection
        (getI md.vertexData defVD vertex0).connectedEdges
        (getI md.vertexData defVD vertex1).connectedEdges
      if sharedEdges.length ≠ 1 then sq
      else
        let edgeIndex := sharedEdges.headD (-1)
        let q' := if !(getI s.examinedEdges false edgeIndex) then
            q ++ [(e, edgeIndex)]
          else q
        (markSymmetricalEdges s e edgeIndex, q')

/-- `PolySymmetryData::findSymmetricalEdgesOnFace`: run the edge
completion step over every edge of the face, threading the state and the
symmetric-edges queue. -/
def findSymmetricalEdgesOnFace (md : MeshData) (s : PolySymmetryData)
    (q : List (Int × Int)) (faceIndex : Int) :
    PolySymmetryData × List (Int × Int) :=
  (getI md.faceData defFD faceIndex).connectedEdges.foldl
    (findSymmetricalEdgesOnFaceStep md) (s, q)

/-- `PolySymmetryData::findFirstSymmetricalVertices`: mark the seed vertex
pair and seed face pair symmetric, pair the "other" endpoints of the two
seed edges, then complete the vertices of the seed face pair. -/
def findFirstSymmetricalVertices (md : MeshData) (s : PolySymmetryData)
    (selection : ComponentSelection) : PolySymmetryData :=
  let s1 := markSymmetricalVertices s selection.vertexIndices.1 selection.vertexIndices.2
  let s2 := markSymmetricalFaces s1 selection.faceIndices.1 selection.faceIndices.2
  let vertex0a := (getI md.edgeData defED selection.edgeIndices.1).connectedVertices.1
  let vertex1a := (getI md.edgeData defED selection.edgeIndices.1).connectedVertices.2
  let nextVertex0 := if getI s2.examinedVertices false vertex0a then vertex1a else vertex0a
  let vertex0b := (getI md.edgeData defED selection.edgeIndices.2).connectedVertices.1
  let vertex1b := (getI md.edgeData defED selection.edgeIndices.2).connectedVertices.2
  let nextVertex1 := if getI s2.examinedVertices false vertex0b then vertex1b else vertex0b
  let s3 := markSymmetricalVertices s2 nextVertex0 nextVertex1
  findSymmetricalVerticesOnFace md s3 selection.faceIndices

/-- Worklist loop of `PolySymmetryData::findSymmetricalVertices`, with
explicit fuel.  Returns the final state, the remaining queue, and the
number of dequeue iterations performed. -/
def findSymmetricalVerticesLoop (md : MeshData) :
    Nat → List (Int × Int) → PolySymmetryData →
    PolySymmetryData × List (Int × Int) × Nat
  | 0, q, s => (s, q, 0)
  | _ + 1, [], s => (s, [], 0)
  | fuel + 1, edgePair :: q, s =>
    let s1 := markSymmetricalEdges s edgePair.1 edgePair.2
    let facesPair := getUnexaminedFaces md s1 edgePair
    if facesPair.1 = -1 ∨ facesPair.2 = -1 then
      let r := findSymmetricalVerticesLoop md fuel q s1
      (r.1, r.2.1, r.2.2 + 1)
    else
      let s2 := markSymmetricalFaces s1 facesPair.1 facesPair.2
      let s3 := findSymmetricalVerticesOnFace md s2 facesPair
      let sq := findSymmetricalEdgesOnFace md s3 q facesPair.1
      let r := findSymmetricalVerticesLoop md fuel sq.2 sq.1
      (r.1, r.2.1, r.2.2 + 1)

/-- `PolySymmetryData::findSymmetricalVertices`: the propagation engine.
Record the optional left-side vertex, resolve the seed, then drain the
FIFO queue of symmetric edge pairs (fuel `numberOfEdges + 1` is proved
sufficient below).  Returns the final state, the remaining queue and the
number of dequeue iterations. -/
def findSymmetricalVertices (md : MeshData) (s : PolySymmetryData)
    (selection : ComponentSelection) :
    PolySymmetryData × List (Int × Int) × Nat :=
  let s1 := if selection.leftVertexIndex ≠ -1 then
      { s with leftSideVertexIndices :=
          s.leftSideVertexIndices ++ [selection.leftVertexIndex] }
    else s
  let s2 := findFirstSymmetricalVertices md s1 selection
  findSymmetricalVerticesLoop md (md.numberOfEdges + 1) [selection.edgeIndices] s2

/-- Largest vertex-adjacency list length in the topology; used to size the
fuel of the side-classifier flood fills. -/
def maxAdj (md : MeshData) : Nat :=
  md.vertexData.foldl (fun m vd => max m vd.connectedVertices.length) 0

/-- First while-loop of `PolySymmetryData::findVertexSides` (left flood
fill), with explicit fuel: skip visited vertices, mark the popped vertex
visited, set it CENTER when self-symmetric, otherwise set it LEFT and
enqueue every unvisited neighbor whose symmetry partner is not the popped
vertex.  Returns visited flags, sides, and the remaining queue. -/
def findVertexSidesLeftLoop (md : MeshData) (vsym : List Int) :
    Nat → List Int → List Bool → List Int → List Bool × List Int × List Int
  | 0, q, visited, sides => (visited, sides, q)
  | _ + 1, [], visited, sides => (visited, sides, [])
  | fuel + 1, vertexIndex :: q, visited, sides =>
    if getI visited false vertexIndex then
      findVertexSidesLeftLoop md vsym fuel q visited sides
    else
      let visited' := setI visited vertexIndex true
      if getI vsym (-1) vertexIndex = vertexIndex then
        findVertexSidesLeftLoop md vsym fuel q visited' (setI sides vertexIndex 0)
      else
        let pushes := (getI md.vertexData defVD vertexIndex).connectedVertices.filter
          (fun i => !(getI visited' false i) && (getI vsym (-1) i != vertexIndex))
        findVertexSidesLeftLoop md vsym fuel (q ++ pushes) visited' (setI sides vertexIndex 1)

/-- Second while-loop of `PolySymmetryData::findVertexSides` (right flood
fill), with explicit fuel: as the left loop but setting RIGHT and without
the partner-exclusion on enqueued neighbors. -/
def findVertexSidesRightLoop (md : MeshData) (vsym : List Int) :
    Nat → List Int → List Bool → List Int → List Bool × List Int × List Int
  | 0, q, visited, sides => (visited, sides, q)
  | _ + 1, [], visited, sides => (visited, sides, [])
  | fuel + 1, vertexIndex :: q, visited, sides =>
    if getI visited false vertexIndex then
      findVertexSidesRightLoop md vsym fuel q visited sides
    else
      let visited' := setI visited vertexIndex true
      if getI vsym (-1) vertexIndex = vertexIndex then
        findVertexSidesRightLoop md vsym fuel q visited' (setI sides vertexIndex 0)
      else
        let pushes := (getI md.vertexData defVD vertexIndex).connectedVertices.filter
          (fun i => !(getI visited' false i))
        findVertexSidesRightLoop md vsym fuel (q ++ pushes) visited' (setI sides vertexIndex (-1))

/-- `PolySymmetryData::findVertexSides` (the Side Classifier): fresh sides
all CENTER, seed the queue with the left vertices marked LEFT, run the
left flood fill; then seed the queue with the symmetry partners of the
left vertices marked RIGHT and run the right flood fill.  Returns the
vertex sides array. -/
def findVertexSides (md : MeshData) (vsym : List Int) (leftSideVertexIndices : List Int) :
    List Int :=
  let n := md.numberOfVertices
  let sides1 := leftSideVertexIndices.foldl (fun sd i => setI sd i 1)
    (List.replicate n 0)
  let fuelL := leftSideVertexIndices.length + n * (1 + maxAdj md) + 1
  let r1 := findVertexSidesLeftLoop md vsym fuelL leftSideVertexIndices
    (List.replicate n false) sides1
  let sides2 := leftSideVertexIndices.foldl
    (fun sd i => setI sd (getI vsym (-1) i) (-1)) r1.2.1
  let q2 := r1.2.2 ++ leftSideVertexIndices.map (fun i => getI vsym (-1) i)
  let fuelR := q2.length + n * (1 + maxAdj md) + 1
  let r2 := findVertexSidesRightLoop md vsym fuelR q2 r1.1 sides2
  r2.2.1

/-- Bounds-checked read `l[i]`: `none` exactly when the C++ access
`l[i]` would be out of bounds (undefined behaviour). -/
def getC {α : Type} (l : List α) (i : Int) : Option α :=
  if 0 ≤ i then l.get? i.toNat else none

/-- Bounds-checked write `l[i] := v`: `none` exactly when the C++ access
would be out of bounds. -/
def setC {α : Type} (l : List α) (i : Int) (v : α) : Option (List α) :=
  if 0 ≤ i ∧ i.toNat < l.length then some (l.set i.toNat v) else none

/-- Bounds-checked neighbor scan of the left flood fill: for each
neighbor, read its visited flag and (only when unvisited, matching the
C++ short-circuit) its symmetry partner; collect the neighbors to
enqueue. -/
def leftPushesChecked (vsym : List Int) (visited : List Bool) (vertexIndex : Int) :
    List Int → Option (List Int)
  | [] => some []
  | i :: rest => do
    let vis ← getC visited i
    let keep ← if vis then pure false
      else do
        let si ← getC vsym i
        pure (si != vertexIndex)
    let rest' ← leftPushesChecked vsym visited vertexIndex rest
    pure (if keep then i :: rest' else rest')

/-- Bounds-checked neighbor scan of the right flood fill: for each
neighbor, read its visited flag; collect the unvisited ones. -/
def rightPushesChecked (visited : List Bool) :
    List Int → Option (List Int)
  | [] => some []
  | i :: rest => do
    let vis ← getC visited i
    let rest' ← rightPushesChecked visited rest
    pure (if vis then rest' else i :: rest')

/-- Bounds-checked left flood fill of `findVertexSides`: every array
access of the C++ loop is checked, `none` modelling an out-of-bounds
access. -/
def findVertexSidesLeftLoopChecked (md : MeshData) (vsym : List Int) :
    Nat → List Int → List Bool → List Int → Option (List Bool × List Int × List Int)
  | 0, q, visited, sides => some (visited, sides, q)
  | _ + 1, [], visited, sides => some (visited, sides, [])
  | fuel + 1, vertexIndex :: q, visited, sides => do
    let vis ← getC visited vertexIndex
    if vis then
      findVertexSidesLeftLoopChecked md vsym fuel q visited sides
    else do
      let visited' ← setC visited vertexIndex true
      let sv ← getC vsym vertexIndex
      if sv = vertexIndex then do
        let sides' ← setC sides vertexIndex 0
        findVertexSidesLeftLoopChecked md vsym fuel q visited' sides'
      else do
        let sides' ← setC sides vertexIndex 1
        let vd ← getC md.vertexData vertexIndex
        let pushes ← leftPushesChecked vsym visited' vertexIndex vd.connectedVertices
        findVertexSidesLeftLoopChecked md vsym fuel (q ++ pushes) visited' sides'

/-- Bounds-checked right flood fill of `findVertexSides`. -/
def findVertexSidesRightLoopChecked (md : MeshData) (vsym : List Int) :
    Nat → List Int → List Bool → List Int → Option (List Bool × List Int × List Int)
  | 0, q, visited, sides => some (visited, sides, q)
  | _ + 1, [], visited, sides => some (visited, sides, [])
  | fuel + 1, vertexIndex :: q, visited, sides => do
    let vis ← getC visited vertexIndex
    if vis then
      findVertexSidesRightLoopChecked md vsym fuel q visited sides
    else do
      let visited' ← setC visited vertexIndex true
      let sv ← getC vsym vertexIndex
      if sv = vertexIndex then do
        let sides' ← setC sides vertexIndex 0
        findVertexSidesRightLoopChecked md vsym fuel q visited' sides'
      else do
        let sides' ← setC sides vertexIndex (-1)
        let vd ← getC md.vertexData vertexIndex
        let pushes ← rightPushesChecked visited' vd.connectedVertices
        findVertexSidesRightLoopChecked md vsym fuel (q ++ pushes) visited' sides'

/-- Bounds-checked writes `vertexSides[i] := LEFT` for the left seeds. -/
def leftSeedAssignChecked (sides : List Int) : List Int → Option (List Int)
  | [] => some sides
  | i :: rest => do
    let sides' ← setC sides i 1
    leftSeedAssignChecked sides' rest

/-- Bounds-checked right-seed pass: for each left seed `i`, read
`vertexSymmetryIndices[i]` (no `-1` sentinel check, as in the source),
enqueue it and write `vertexSides[vertexSymmetryIndices[i]] := RIGHT`.
Returns the updated sides and the enqueued partners. -/
def rightSeedAssignChecked (vsym : List Int) (sides : List Int) :
    List Int → Option (List Int × List Int)
  | [] => some (sides, [])
  | i :: rest => do
    let si ← getC vsym i
    let sides' ← setC sides si (-1)
    let r ← rightSeedAssignChecked vsym sides' rest
    pure (r.1, si :: r.2)

/-- Bounds-checked `PolySymmetryData::findVertexSides`: `none` exactly
when some array access of the C++ function would be out of bounds. -/
def findVertexSidesChecked (md : MeshData) (vsym : List Int)
    (leftSideVertexIndices : List Int) : Option (List Int) := do
  let n := md.numberOfVertices
  let sides1 ← leftSeedAssignChecked (List.replicate n 0) leftSideVertexIndices
  let fuelL := leftSideVertexIndices.length + n * (1 + maxAdj md) + 1
  let r1 ← findVertexSidesLeftLoopChecked md vsym fuelL leftSideVertexIndices
    (List.replicate n false) sides1
  let r2 ← rightSeedAssignChecked vsym r1.2.1 leftSideVertexIndices
  let q2 := r1.2.2 ++ r2.2
  let fuelR := q2.length + n * (1 + maxAdj md) + 1
  let r3 ← findVertexSidesRightLoopChecked md vsym fuelR q2 r1.1 r2.1
  pure r3.2.1

/-- Edge pass of `PolySymmetryData::finalizeSymmetry`, one edge: both
endpoint sides CENTER gives CENTER; else either endpoint RIGHT gives
RIGHT; else either endpoint LEFT gives LEFT; otherwise the entry is left
unassigned. -/
def finalizeEdgeSidesStep (md : MeshData) (vsides : List Int)
    (es : List Int) (i : Nat) : List Int :=
  let sv0 := getI vsides 0 (getI md.edgeData defED (i : Int)).connectedVertices.1
  let sv1 := getI vsides 0 (getI md.edgeData defED (i : Int)).connectedVertices.2
  if sv0 = 0 ∧ sv1 = 0 then setI es (i : Int) 0
  else if sv0 = -1 ∨ sv1 = -1 then setI es (i : Int) (-1)
  else if sv0 = 1 ∨ sv1 = 1 then setI es (i : Int) 1
  else es

/-- Face pass of `PolySymmetryData::finalizeSymmetry`, one face: collect
the sides of the face's vertex loop; the face side is (LEFT if any vertex
is LEFT else CENTER) plus (RIGHT if any vertex is RIGHT else CENTER). -/
def finalizeFaceSidesStep (md : MeshData) (vsides : List Int)
    (fs : List Int) (i : Nat) : List Int :=
  let faceVertexSides := (getI md.faceData defFD (i : Int)).connectedVertices.map
    (getI vsides 0)
  let onTheLeft := faceVertexSides.contains 1
  let onTheRight := faceVertexSides.contains (-1)
  setI fs (i : Int) ((if onTheLeft then 1 else 0) + (if onTheRight then -1 else 0))

/-- `PolySymmetryData::finalizeSymmetry`: derive every edge side and every
face side from the vertex sides. -/
def finalizeSymmetry (md : MeshData) (s : PolySymmetryData) : PolySymmetryData :=
  { s with
    edgeSides := (List.range md.numberOfEdges).foldl
      (finalizeEdgeSidesStep md s.vertexSides) s.edgeSides
    faceSides := (List.range md.numberOfFaces).foldl
      (finalizeFaceSidesStep md s.vertexSides) s.faceSides }

/-- Full pipeline for one seed selection, as driven by the callers of the
core: reset, propagation engine, side classifier on the accumulated left
seeds, then finalization of derived sides. -/
def runPolySymmetry (md : MeshData) (selection : ComponentSelection) : PolySymmetryData :=
  let s1 := (findSymmetricalVertices md (reset md) selection).1
  let s2 := { s1 with
    vertexSides := findVertexSides md s1.vertexSymmetryIndices s1.leftSideVertexIndices }
  finalizeSymmetry md s2

/-! ### Basic lemmas about the array access helpers -/

theorem length_setI {α : Type} (l : List α) (i : Int) (v : α) :
    (setI l i v).length = l.length := by
  unfold setI
  split <;> simp

theorem getI_setI_self {α : Type} (l : List α) (d : α) (i : Int) (v : α)
    (h0 : 0 ≤ i) (h1 : i.toNat < l.length) :
    getI (setI l i v) d i = v := by
  unfold getI setI
  simp only [if_pos h0]
  rw [List.getD_eq_getElem?_getD, List.getElem?_set_self (by simpa using h1)]
  rfl

theorem getI_setI_ne {α : Type} (l : List α) (d : α) (i j : Int) (v : α)
    (h : j ≠ i) : getI (setI l i v) d j = getI l d j := by
  unfold getI setI
  split
  · split
    · rw [List.getD_eq_getElem?_getD, List.getElem?_set_ne, ← List.getD_eq_getElem?_getD]
      omega
    · rfl
  · rfl

theorem getI_neg {α : Type} (l : List α) (d : α) (i : Int) (h : i < 0) :
    getI l d i = d := by
  unfold getI
  rw [if_neg (by omega)]

theorem getI_oob {α : Type} (l : List α) (d : α) (i : Int)
    (h : l.length ≤ i.toNat) : getI l d i = d := by
  unfold getI
  split
  · exact List.getD_eq_default _ _ h
  · rfl

theorem getI_mem {α : Type} (l : List α) (d : α) (i : Int) :
    getI l d i = d ∨ getI l d i ∈ l := by
  unfold getI
  split
  · rw [List.getD_eq_getElem?_getD]
    rcases h : l[i.toNat]? with _ | a
    · simp
    · right
      simpa using List.getElem?_mem h
  · exact Or.inl rfl

theorem getI_replicate {α : Type} (n : Nat) (d v : α) (i : Int) :
    getI (List.replicate n v) d i = v ∨ getI (List.replicate n v) d i = d := by
  rcases getI_mem (List.replicate n v) d i with h | h
  · exact Or.inr h
  · exact Or.inl (List.eq_of_mem_replicate h)

/-- Writing back the value already stored leaves the list unchanged. -/
theorem set_getD_self {α : Type} (l : List α) (n : Nat) (v : α)
    (h : l.getD n v = v) : l.set n v = l := by
  induction l generalizing n with
  | nil => rfl
  | cons a t ih =>
    cases n with
    | zero => simpa using h.symm ▸ rfl
    | succ m =>
      simp only [List.set_cons_succ, List.cons.injEq, true_and]
      exact ih m (by simpa using h)

theorem setI_id {α : Type} (l : List α) (i : Int) (v : α)
    (h : getI l v i = v) : setI l i v = l := by
  unfold setI
  split
  · apply set_getD_self
    unfold getI at h
    rwa [if_pos (by omega)] at h
  · rfl

/-! ### Valid side values -/

/-- A side value is LEFT (1), RIGHT (-1) or CENTER (0). -/
def ValidSide (x : Int) : Prop := x = -1 ∨ x = 0 ∨ x = 1

theorem validSide_getI (l : List Int) (d : Int) (i : Int)
    (hl : ∀ x ∈ l, ValidSide x) (hd : ValidSide d) : ValidSide (getI l d i) := by
  rcases getI_mem l d i with h | h
  · rwa [h]
  · exact hl _ h

/-! ### Pointwise description of the finalization folds -/

theorem getI_foldl_range (step : List Int → Nat → List Int) (L : Nat) (d : Int)
    (v : Nat → Int)
    (hlen : ∀ es j, es.length = L → (step es j).length = L)
    (hne : ∀ es (j k : Nat), k ≠ j → getI (step es j) d (k : Int) = getI es d (k : Int))
    (i : Nat)
    (hself : ∀ es, es.length = L → i < L → getI (step es i) d (i : Int) = v i)
    (n : Nat) (es0 : List Int) (h0 : es0.length = L)
    (hi : i < n) (hiL : i < L) :
    getI ((List.range n).foldl step es0) d (i : Int) = v i := by
  induction n with
  | zero => omega
  | succ m ih =>
    have hfoldlen : ∀ (k : Nat) (es : List Int), es.length = L →
        ((List.range k).foldl step es).length = L := by
      intro k
      induction k with
      | zero => intro es h; simpa using h
      | succ p ihp =>
        intro es h
        rw [List.range_succ, List.foldl_append]
        exact hlen _ _ (ihp es h)
    rw [List.range_succ, List.foldl_append, List.foldl_cons, List.foldl_nil]
    rcases Nat.lt_or_ge i m with hlt | hge
    · rw [hne _ m i (by omega)]
      exact ih hlt
    · have him : i = m := by omega
      subst him
      exact hself _ (hfoldlen _ _ h0) hiL

instance : DecidablePred ValidSide := fun x => by
  unfold ValidSide
  infer_instance

/-- The edge-side function as the specification describes it: both
endpoints CENTER gives CENTER, else either endpoint RIGHT gives RIGHT,
else either endpoint LEFT gives LEFT (checked in this order). -/
def claimEdgeSide (sv0 sv1 : Int) : Int :=
  if sv0 = 0 ∧ sv1 = 0 then 0
  else if sv0 = -1 ∨ sv1 = -1 then -1
  else if sv0 = 1 ∨ sv1 = 1 then 1
  else 0

/-- The face-side function as the specification describes it: 1 if any
loop vertex side is LEFT else 0, plus -1 if any loop vertex side is RIGHT
else 0. -/
def claimFaceSide (svs : List Int) : Int :=
  (if (1 : Int) ∈ svs then 1 else 0) + (if (-1 : Int) ∈ svs then -1 else 0)

theorem finalizeEdgeSidesStep_length (md : MeshData) (vsides es : List Int) (j : Nat) :
    (finalizeEdgeSidesStep md vsides es j).length = es.length := by
  unfold finalizeEdgeSidesStep
  dsimp only
  split
  · exact length_setI _ _ _
  · split
    · exact length_setI _ _ _
    · split
      · exact length_setI _ _ _
      · rfl

theorem finalizeEdgeSidesStep_ne (md : MeshData) (vsides es : List Int)
    (d : Int) (j k : Nat) (h : k ≠ j) :
    getI (finalizeEdgeSidesStep md vsides es j) d (k : Int) = getI es d (k : Int) := by
  have hk : (k : Int) ≠ (j : Int) := by omega
  unfold finalizeEdgeSidesStep
  dsimp only
  split
  · exact getI_setI_ne _ _ _ _ _ hk
  · split
    · exact getI_setI_ne _ _ _ _ _ hk
    · split
      · exact getI_setI_ne _ _ _ _ _ hk
      · rfl

theorem finalizeEdgeSidesStep_self (md : MeshData) (vsides es : List Int)
    (d : Int) (j : Nat) (hj : j < es.length)
    (hv : ∀ x ∈ vsides, ValidSide x) :
    getI (finalizeEdgeSidesStep md vsides es j) d (j : Int) =
      claimEdgeSide
        (getI vsides 0 (getI md.edgeData defED (j : Int)).connectedVertices.1)
        (getI vsides 0 (getI md.edgeData defED (j : Int)).connectedVertices.2) := by
  have h0 : (0 : Int) ≤ (j : Int) := by omega
  have hjn : (j : Int).toNat < es.length := by omega
  have hv0 : ValidSide (getI vsides 0 (getI md.edgeData defED (j : Int)).connectedVertices.1) :=
    validSide_getI _ _ _ hv (Or.inr (Or.inl rfl))
  have hv1 : ValidSide (getI vsides 0 (getI md.edgeData defED (j : Int)).connectedVertices.2) :=
    validSide_getI _ _ _ hv (Or.inr (Or.inl rfl))
  unfold finalizeEdgeSidesStep claimEdgeSide
  dsimp only
  split
  · exact getI_setI_self _ _ _ _ h0 hjn
  · split
    · exact getI_setI_self _ _ _ _ h0 hjn
    · split
      · exact getI_setI_self _ _ _ _ h0 hjn
      · rename_i hc hr hl
        exfalso
        rcases hv0 with h | h | h <;> rcases hv1 with h' | h' | h' <;>
          simp [h, h'] at hc hr hl

theorem finalizeSymmetry_edgeSides (md : MeshData) (s : PolySymmetryData) :
    (finalizeSymmetry md s).edgeSides =
      (List.range md.numberOfEdges).foldl
        (finalizeEdgeSidesStep md s.vertexSides) s.edgeSides := rfl

/-- C4: the derived edge side is the order-sensitive function of the two
endpoint vertex sides: both CENTER gives CENTER, else either endpoint
RIGHT gives RIGHT, else either endpoint LEFT gives LEFT; in particular
one LEFT endpoint plus one RIGHT endpoint resolves to RIGHT. -/
theorem c4_edge_side_derivation (md : MeshData) (s : PolySymmetryData) (i : Nat)
    (hlen : s.edgeSides.length = md.numberOfEdges)
    (hi : i < md.numberOfEdges)
    (hv : ∀ x ∈ s.vertexSides, ValidSide x) :
    getI (finalizeSymmetry md s).edgeSides 0 (i : Int) =
      claimEdgeSide
        (getI s.vertexSides 0 (getI md.edgeData defED (i : Int)).connectedVertices.1)
        (getI s.vertexSides 0 (getI md.edgeData defED (i : Int)).connectedVertices.2) ∧
    (getI s.vertexSides 0 (getI md.edgeData defED (i : Int)).connectedVertices.1 = 1 →
     getI s.vertexSides 0 (getI md.edgeData defED (i : Int)).connectedVertices.2 = -1 →
     getI (finalizeSymmetry md s).edgeSides 0 (i : Int) = -1) := by
  have hmain : getI (finalizeSymmetry md s).edgeSides 0 (i : Int) =
      claimEdgeSide
        (getI s.vertexSides 0 (getI md.edgeData defED (i : Int)).connectedVertices.1)
        (getI s.vertexSides 0 (getI md.edgeData defED (i : Int)).connectedVertices.2) := by
    rw [finalizeSymmetry_edgeSides]
    exact getI_foldl_range (finalizeEdgeSidesStep md s.vertexSides) md.numberOfEdges 0
      (fun j => claimEdgeSide
        (getI s.vertexSides 0 (getI md.edgeData defED (j : Int)).connectedVertices.1)
        (getI s.vertexSides 0 (getI md.edgeData defED (j : Int)).connectedVertices.2))
      (fun es j h => by rw [finalizeEdgeSidesStep_length, h])
      (fun es j k h => finalizeEdgeSidesStep_ne md s.vertexSides es 0 j k h)
      i
      (fun es h hj => finalizeEdgeSidesStep_self md s.vertexSides es 0 i (by omega) hv)
      md.numberOfEdges s.edgeSides hlen hi hi
  refine ⟨hmain, fun h1 h2 => ?_⟩
  rw [hmain, h1, h2]
  rfl

theorem finalizeFaceSidesStep_length (md : MeshData) (vsides fs : List Int) (j : Nat) :
    (finalizeFaceSidesStep md vsides fs j).length = fs.length := by
  unfold finalizeFaceSidesStep
  exact length_setI _ _ _

theorem finalizeFaceSidesStep_ne (md : MeshData) (vsides fs : List Int)
    (d : Int) (j k : Nat) (h : k ≠ j) :
    getI (finalizeFaceSidesStep md vsides fs j) d (k : Int) = getI fs d (k : Int) := by
  unfold finalizeFaceSidesStep
  exact getI_setI_ne _ _ _ _ _ (by omega)

theorem finalizeFaceSidesStep_self (md : MeshData) (vsides fs : List Int)
    (d : Int) (j : Nat) (hj : j < fs.length) :
    getI (finalizeFaceSidesStep md vsides fs j) d (j : Int) =
      claimFaceSide ((getI md.faceData defFD (j : Int)).connectedVertices.map
        (getI vsides 0)) := by
  unfold finalizeFaceSidesStep claimFaceSide
  rw [getI_setI_self _ _ _ _ (by omega) (by omega)]
  congr 1
  · by_cases h : (1 : Int) ∈ (getI md.faceData defFD (j : Int)).connectedVertices.map (getI vsides 0)
    · rw [if_pos h, if_pos (by simpa using h)]
    · rw [if_neg h, if_neg (by simpa using h)]
  · by_cases h : (-1 : Int) ∈ (getI md.faceData defFD (j : Int)).connectedVertices.map (getI vsides 0)
    · rw [if_pos h, if_pos (by simpa using h)]
    · rw [if_neg h, if_neg (by simpa using h)]

theorem finalizeSymmetry_faceSides (md : MeshData) (s : PolySymmetryData) :
    (finalizeSymmetry md s).faceSides =
      (List.range md.numberOfFaces).foldl
        (finalizeFaceSidesStep md s.vertexSides) s.faceSides := rfl

/-- C5: the derived face side equals (1 if any loop vertex is LEFT else 0)
plus (-1 if any loop vertex is RIGHT else 0); in particular a face whose
loop contains both a LEFT and a RIGHT vertex is classified CENTER. -/
theorem c5_face_side_formula (md : MeshData) (s : PolySymmetryData) (i : Nat)
    (hlen : s.faceSides.length = md.numberOfFaces)
    (hi : i < md.numberOfFaces) :
    getI (finalizeSymmetry md s).faceSides 0 (i : Int) =
      claimFaceSide ((getI md.faceData defFD (i : Int)).connectedVertices.map
        (getI s.vertexSides 0)) ∧
    ((1 : Int) ∈ (getI md.faceData defFD (i : Int)).connectedVertices.map (getI s.vertexSides 0) →
     (-1 : Int) ∈ (getI md.faceData defFD (i : Int)).connectedVertices.map (getI s.vertexSides 0) →
     getI (finalizeSymmetry md s).faceSides 0 (i : Int) = 0) := by
  have hmain : getI (finalizeSymmetry md s).faceSides 0 (i : Int) =
      claimFaceSide ((getI md.faceData defFD (i : Int)).connectedVertices.map
        (getI s.vertexSides 0)) := by
    rw [finalizeSymmetry_faceSides]
    exact getI_foldl_range (finalizeFaceSidesStep md s.vertexSides) md.numberOfFaces 0
      (fun j => claimFaceSide ((getI md.faceData defFD (j : Int)).connectedVertices.map
        (getI s.vertexSides 0)))
      (fun fs j h => by rw [finalizeFaceSidesStep_length, h])
      (fun fs j k h => finalizeFaceSidesStep_ne md s.vertexSides fs 0 j k h)
      i
      (fun fs h hj => finalizeFaceSidesStep_self md s.vertexSides fs 0 i (by omega))
      md.numberOfFaces s.faceSides hlen hi hi
  refine ⟨hmain, fun h1 h2 => ?_⟩
  rw [hmain]
  unfold claimFaceSide
  rw [if_pos h1, if_pos h2]
  rfl

/-! ### Concrete meshes used as witnesses and counterexamples -/

/-- A mesh of two disconnected quad shells: shell A is face 0 with
vertices 0-3 and edges 0-3 (in a loop), shell B is face 1 with vertices
4-7 and edges 4-7. -/
def mdW : MeshData :=
  { numberOfVertices := 8, numberOfEdges := 8, numberOfFaces := 2
    vertexData :=
      [⟨[1, 3], [0, 3], [[1, 3], []]⟩, ⟨[0, 2], [0, 1], [[0, 2], []]⟩,
       ⟨[1, 3], [1, 2], [[1, 3], []]⟩, ⟨[2, 0], [2, 3], [[2, 0], []]⟩,
       ⟨[5, 7], [4, 7], [[], [5, 7]]⟩, ⟨[4, 6], [4, 5], [[], [4, 6]]⟩,
       ⟨[5, 7], [5, 6], [[], [5, 7]]⟩, ⟨[6, 4], [6, 7], [[], [6, 4]]⟩]
    edgeData :=
      [⟨(0, 1), [0]⟩, ⟨(1, 2), [0]⟩, ⟨(2, 3), [0]⟩, ⟨(3, 0), [0]⟩,
       ⟨(4, 5), [1]⟩, ⟨(5, 6), [1]⟩, ⟨(6, 7), [1]⟩, ⟨(7, 4), [1]⟩]
    faceData := [⟨[0, 1, 2, 3], [0, 1, 2, 3]⟩, ⟨[4, 5, 6, 7], [4, 5, 6, 7]⟩] }

/-- Seed entirely inside shell A of `mdW`: edge pair (0, 2) of the quad,
the shared self-symmetric face (0, 0), vertex pair (0, 3) and left vertex
0. -/
def selW : ComponentSelection := ⟨(0, 2), (0, 0), (0, 3), 0⟩

/-- A state over `mdW` whose vertex sides are those computed by the
pipeline for `selW` (shell A classified, shell B all CENTER). -/
def sW4 : PolySymmetryData :=
  { reset mdW with vertexSides := [1, 1, -1, -1, 0, 0, 0, 0] }

/-- A small coherent mesh on which the two seed edges share vertex 1:
edge 0 joins vertices 0 and 1 on face 0, edge 1 joins vertices 1 and 2 on
face 1. -/
def mdC1 : MeshData :=
  { numberOfVertices := 3, numberOfEdges := 2, numberOfFaces := 2
    vertexData := [⟨[1], [0], [[1], []]⟩, ⟨[0, 2], [0, 1], [[0], [2]]⟩,
                   ⟨[1], [1], [[], [1]]⟩]
    edgeData := [⟨(0, 1), [0]⟩, ⟨(1, 2), [1]⟩]
    faceData := [⟨[0, 1], [0]⟩, ⟨[1, 2], [1]⟩] }

/-- Seed on `mdC1` whose vertex pair is (0, 1): each seed vertex lies on
its seed edge, yet the computed "other endpoint" of edge 0 is the already
examined vertex 1, which then gets re-paired. -/
def selC1 : ComponentSelection := ⟨(0, 1), (0, 1), (0, 1), -1⟩

/-- A single-vertex mesh with no edges and no faces. -/
def md1 : MeshData :=
  { numberOfVertices := 1, numberOfEdges := 0, numberOfFaces := 0
    vertexData := [⟨[], [], []⟩], edgeData := [], faceData := [] }

/-- A two-vertex mesh with no edges and no faces. -/
def md2 : MeshData :=
  { numberOfVertices := 2, numberOfEdges := 0, numberOfFaces := 0
    vertexData := [⟨[1], [], []⟩, ⟨[0], [], []⟩], edgeData := [], faceData := [] }

/-- Two single-face shells, each with one boundary edge: edge 0 on face 0
with vertices 0 and 1, edge 1 on face 1 with vertices 2 and 3. -/
def mdC9 : MeshData :=
  { numberOfVertices := 4, numberOfEdges := 2, numberOfFaces := 2
    vertexData := [⟨[1], [0], [[1], []]⟩, ⟨[0], [0], [[0], []]⟩,
                   ⟨[3], [1], [[], [3]]⟩, ⟨[2], [1], [[], [2]]⟩]
    edgeData := [⟨(0, 1), [0]⟩, ⟨(2, 3), [1]⟩]
    faceData := [⟨[0, 1], [0]⟩, ⟨[2, 3], [1]⟩] }

/-- Seed on `mdC9` pairing the two boundary edges. -/
def selC9 : ComponentSelection := ⟨(0, 1), (0, 1), (0, 2), 0⟩

/-- Witness for the edge-side derivation at a concrete input: edge 1 of
`mdW` has endpoint sides LEFT and RIGHT and derives to RIGHT. -/
theorem c4_edge_side_derivation_witness :
    (sW4.edgeSides.length = mdW.numberOfEdges ∧ 1 < mdW.numberOfEdges ∧
      ∀ x ∈ sW4.vertexSides, ValidSide x) ∧
    (getI (finalizeSymmetry mdW sW4).edgeSides 0 (1 : Nat) =
      claimEdgeSide
        (getI sW4.vertexSides 0 (getI mdW.edgeData defED (1 : Nat)).connectedVertices.1)
        (getI sW4.vertexSides 0 (getI mdW.edgeData defED (1 : Nat)).connectedVertices.2) ∧
    (getI sW4.vertexSides 0 (getI mdW.edgeData defED (1 : Nat)).connectedVertices.1 = 1 →
     getI sW4.vertexSides 0 (getI mdW.edgeData defED (1 : Nat)).connectedVertices.2 = -1 →
     getI (finalizeSymmetry mdW sW4).edgeSides 0 (1 : Nat) = -1)) :=
  ⟨⟨by decide, by decide, by decide⟩,
    c4_edge_side_derivation mdW sW4 1 (by decide) (by decide) (by decide)⟩

/-- Witness for the face-side formula at a concrete input: face 0 of
`mdW` straddles the seam (sides 1, 1, -1, -1) and is classified CENTER. -/
theorem c5_face_side_formula_witness :
    (sW4.faceSides.length = mdW.numberOfFaces ∧ 0 < mdW.numberOfFaces) ∧
    (getI (finalizeSymmetry mdW sW4).faceSides 0 (0 : Nat) =
      claimFaceSide ((getI mdW.faceData defFD (0 : Nat)).connectedVertices.map
        (getI sW4.vertexSides 0)) ∧
    ((1 : Int) ∈ (getI mdW.faceData defFD (0 : Nat)).connectedVertices.map
        (getI sW4.vertexSides 0) →
     (-1 : Int) ∈ (getI mdW.faceData defFD (0 : Nat)).connectedVertices.map
        (getI sW4.vertexSides 0) →
     getI (finalizeSymmetry mdW sW4).faceSides 0 (0 : Nat) = 0)) :=
  ⟨⟨by decide, by decide⟩,
    c5_face_side_formula mdW sW4 0 (by decide) (by decide)⟩

/-! ### C6: ambiguous edge reconstruction is skipped -/

/-- If two defaults give the same read result, the read is stable under
changing the default. -/
theorem getI_default_swap {α : Type} (l : List α) (d v : α) (i : Int)
    (h : getI l d i = v) : getI l v i = v := by
  unfold getI at *
  split
  · rename_i h0
    rw [if_pos h0, List.getD_eq_getElem?_getD] at h
    rw [List.getD_eq_getElem?_getD]
    rcases hx : l[i.toNat]? with _ | a
    · simp [hx] at h ⊢
    · simpa [hx] using h
  · rfl

/-- C6: during face edge completion, an unexamined face edge whose two
endpoint partners are resolved but share a number of common edges other
than one is skipped entirely: the state is unchanged and nothing is
enqueued. -/
theorem c6_ambiguous_edge_skipped (md : MeshData) (s : PolySymmetryData)
    (q : List (Int × Int)) (e : Int)
    (hne : getI s.examinedEdges false e = false)
    (hv0 : getI s.vertexSymmetryIndices (-1)
      (getI md.edgeData defED e).connectedVertices.1 ≠ -1)
    (hv1 : getI s.vertexSymmetryIndices (-1)
      (getI md.edgeData defED e).connectedVertices.2 ≠ -1)
    (hcount : (intersection
      (getI md.vertexData defVD (getI s.vertexSymmetryIndices (-1)
        (getI md.edgeData defED e).connectedVertices.1)).connectedEdges
      (getI md.vertexData defVD (getI s.vertexSymmetryIndices (-1)
        (getI md.edgeData defED e).connectedVertices.2)).connectedEdges).length ≠ 1) :
    findSymmetricalEdgesOnFaceStep md (s, q) e = (s, q) := by
  unfold findSymmetricalEdgesOnFaceStep
  dsimp only
  rw [hne]
  simp only [Bool.false_eq_true, if_false]
  rw [if_neg (by tauto), if_pos hcount]

/-- A state over `mdC9` in which vertices 0 and 1 are resolved to
partners that share no common edge. -/
def sC6 : PolySymmetryData :=
  { reset mdC9 with vertexSymmetryIndices := [0, 3, -1, 2] }

/-- Witness for the ambiguous-edge skip at a concrete input: on `mdC9`
with partners 0 and 3, edge 0 finds zero shared edges and is skipped. -/
theorem c6_ambiguous_edge_skipped_witness :
    (getI sC6.examinedEdges false 0 = false ∧
     getI sC6.vertexSymmetryIndices (-1)
       (getI mdC9.edgeData defED 0).connectedVertices.1 ≠ -1 ∧
     getI sC6.vertexSymmetryIndices (-1)
       (getI mdC9.edgeData defED 0).connectedVertices.2 ≠ -1 ∧
     (intersection
       (getI mdC9.vertexData defVD (getI sC6.vertexSymmetryIndices (-1)
         (getI mdC9.edgeData defED 0).connectedVertices.1)).connectedEdges
       (getI mdC9.vertexData defVD (getI sC6.vertexSymmetryIndices (-1)
         (getI mdC9.edgeData defED 0).connectedVertices.2)).connectedEdges).length ≠ 1) ∧
    findSymmetricalEdgesOnFaceStep mdC9 (sC6, []) 0 = (sC6, []) :=
  ⟨⟨by decide, by decide, by decide, by decide⟩,
    c6_ambiguous_edge_skipped mdC9 sC6 [] 0 (by decide) (by decide) (by decide) (by decide)⟩

/-! ### C9: dead-end edge pairs in the worklist loop -/

/-- Re-marking an edge pair that is already mutually marked leaves the
state unchanged. -/
theorem markSymmetricalEdges_id (s : PolySymmetryData) (e0 e1 : Int)
    (hsym0 : getI s.edgeSymmetryIndices (-1) e0 = e1)
    (hsym1 : getI s.edgeSymmetryIndices (-1) e1 = e0)
    (hex0 : getI s.examinedEdges false e0 = true)
    (hex1 : getI s.examinedEdges false e1 = true) :
    markSymmetricalEdges s e0 e1 = s := by
  unfold markSymmetricalEdges
  rw [setI_id s.edgeSymmetryIndices e0 e1 (getI_default_swap _ _ _ _ hsym0),
    setI_id s.edgeSymmetryIndices e1 e0 (getI_default_swap _ _ _ _ hsym1),
    setI_id s.examinedEdges e0 true (getI_default_swap _ _ _ _ hex0),
    setI_id s.examinedEdges e1 true (getI_default_swap _ _ _ _ hex1)]

/-- The state the propagation engine has built on `mdC9` just before its
worklist loop starts (left seed recorded, seed resolution done). -/
def sC9pre : PolySymmetryData :=
  findFirstSymmetricalVertices mdC9 { reset mdC9 with leftSideVertexIndices := [0] } selC9

/-- Counterexample to C9 as stated: on `mdC9`, the engine dequeues the
seed pair (0, 1); both sides yield no unexamined face (`-1`), yet the
iteration does change the symmetry table — the two boundary edges are
newly marked examined by the pre-check call to `markSymmetricalEdges`. -/
theorem c9_counterexample :
    findSymmetricalVertices mdC9 (reset mdC9) selC9 =
      findSymmetricalVerticesLoop mdC9 3 [(0, 1)] sC9pre ∧
    (getUnexaminedFaces mdC9 (markSymmetricalEdges sC9pre 0 1) ((0 : Int), (1 : Int))).1 = -1 ∧
    (getUnexaminedFaces mdC9 (markSymmetricalEdges sC9pre 0 1) ((0 : Int), (1 : Int))).2 = -1 ∧
    sC9pre.examinedEdges = [false, false] ∧
    (findSymmetricalVerticesLoop mdC9 1 [(0, 1)] sC9pre).1.examinedEdges = [true, true] := by
  decide

/-- C9 (amended): when a dequeued edge pair that is already mutually
marked yields no unexamined face on either side, the pair is dropped and
that worklist iteration leaves the symmetry table exactly unchanged: the
loop simply continues on the rest of the queue. -/
theorem c9_dead_end_pair_dropped (md : MeshData) (s : PolySymmetryData)
    (q : List (Int × Int)) (e0 e1 : Int) (fuel : Nat)
    (hsym0 : getI s.edgeSymmetryIndices (-1) e0 = e1)
    (hsym1 : getI s.edgeSymmetryIndices (-1) e1 = e0)
    (hex0 : getI s.examinedEdges false e0 = true)
    (hex1 : getI s.examinedEdges false e1 = true)
    (hface : (getUnexaminedFaces md s (e0, e1)).1 = -1 ∨
      (getUnexaminedFaces md s (e0, e1)).2 = -1) :
    markSymmetricalEdges s e0 e1 = s ∧
    findSymmetricalVerticesLoop md (fuel + 1) ((e0, e1) :: q) s =
      ((findSymmetricalVerticesLoop md fuel q s).1,
       (findSymmetricalVerticesLoop md fuel q s).2.1,
       (findSymmetricalVerticesLoop md fuel q s).2.2 + 1) := by
  have hmark : markSymmetricalEdges s e0 e1 = s :=
    markSymmetricalEdges_id s e0 e1 hsym0 hsym1 hex0 hex1
  refine ⟨hmark, ?_⟩
  conv_lhs => rw [findSymmetricalVerticesLoop]
  dsimp only
  rw [hmark, if_pos hface]

/-- The state after the engine's only worklist iteration on `mdC9`: the
seed pair is mutually marked and both faces are examined. -/
def sC9post : PolySymmetryData := (findSymmetricalVerticesLoop mdC9 1 [(0, 1)] sC9pre).1

/-- Witness for the dead-end drop at a concrete input: dequeuing the
already-marked pair (0, 1) on `mdC9` in state `sC9post` changes
nothing. -/
theorem c9_dead_end_pair_dropped_witness :
    (getI sC9post.edgeSymmetryIndices (-1) 0 = 1 ∧
     getI sC9post.edgeSymmetryIndices (-1) 1 = 0 ∧
     getI sC9post.examinedEdges false 0 = true ∧
     getI sC9post.examinedEdges false 1 = true ∧
     (getUnexaminedFaces mdC9 sC9post ((0 : Int), (1 : Int))).1 = -1) ∧
    (markSymmetricalEdges sC9post 0 1 = sC9post ∧
     findSymmetricalVerticesLoop mdC9 1 [((0 : Int), (1 : Int))] sC9post =
       ((findSymmetricalVerticesLoop mdC9 0 [] sC9post).1,
        (findSymmetricalVerticesLoop mdC9 0 [] sC9post).2.1,
        (findSymmetricalVerticesLoop mdC9 0 [] sC9post).2.2 + 1)) :=
  ⟨⟨by decide, by decide, by decide, by decide, by decide⟩,
    c9_dead_end_pair_dropped mdC9 sC9post [] 0 1 0 (by decide) (by decide)
      (by decide) (by decide) (Or.inl (by decide))⟩

/-! ### C2: self-symmetric vertices and the CENTER side -/

theorem getI_setI_cases {α : Type} (l : List α) (d : α) (i : Int) (v : α) :
    getI (setI l i v) d i = v ∨ getI (setI l i v) d i = getI l d i := by
  unfold getI setI
  split
  · rename_i h0
    rcases Nat.lt_or_ge i.toNat l.length with hlt | hge
    · left
      rw [List.getD_eq_getElem?_getD, List.getElem?_set_self hlt]
      rfl
    · right
      rw [List.getD_eq_default, List.getD_eq_default _ _ hge]
      rw [List.length_set]
      exact hge
  · right
    rfl

/-- Every vertex the symmetry table maps to itself has side CENTER. -/
def SelfCenterInv (vsym sides : List Int) : Prop :=
  ∀ v : Int, getI vsym (-1) v = v → getI sides 0 v = 0

theorem selfCenterInv_write (vsym sides : List Int) (u c : Int)
    (hc : c = 0 ∨ getI vsym (-1) u ≠ u)
    (hP : SelfCenterInv vsym sides) : SelfCenterInv vsym (setI sides u c) := by
  intro v hv
  by_cases hvu : v = u
  · subst hvu
    rcases hc with hc | hc
    · subst hc
      rcases getI_setI_cases sides 0 v 0 with h | h
      · exact h
      · rw [h]
        exact hP v hv
    · exact absurd hv hc
  · rw [getI_setI_ne _ _ _ _ _ hvu]
    exact hP v hv

theorem selfCenterInv_seedAssign (vsym : List Int) :
    ∀ (seeds sides : List Int),
      (∀ i ∈ seeds, getI vsym (-1) i ≠ i) → SelfCenterInv vsym sides →
      SelfCenterInv vsym (seeds.foldl (fun sd i => setI sd i 1) sides) := by
  intro seeds
  induction seeds with
  | nil => exact fun sides _ h => h
  | cons a t ih =>
    intro sides hmem h
    rw [List.foldl_cons]
    exact ih _ (fun i hi => hmem i (List.mem_cons_of_mem a hi))
      (selfCenterInv_write vsym sides a 1
        (Or.inr (hmem a (List.mem_cons_self a t))) h)

theorem selfCenterInv_rightSeedAssign (vsym : List Int) :
    ∀ (seeds sides : List Int),
      (∀ i ∈ seeds, getI vsym (-1) (getI vsym (-1) i) ≠ getI vsym (-1) i) →
      SelfCenterInv vsym sides →
      SelfCenterInv vsym
        (seeds.foldl (fun sd i => setI sd (getI vsym (-1) i) (-1)) sides) := by
  intro seeds
  induction seeds with
  | nil => exact fun sides _ h => h
  | cons a t ih =>
    intro sides hmem h
    rw [List.foldl_cons]
    exact ih _ (fun i hi => hmem i (List.mem_cons_of_mem a hi))
      (selfCenterInv_write vsym sides (getI vsym (-1) a) (-1)
        (Or.inr (hmem a (List.mem_cons_self a t))) h)

theorem selfCenterInv_leftLoop (md : MeshData) (vsym : List Int) :
    ∀ (fuel : Nat) (q : List Int) (visited : List Bool) (sides : List Int),
      SelfCenterInv vsym sides →
      SelfCenterInv vsym (findVertexSidesLeftLoop md vsym fuel q visited sides).2.1 := by
  intro fuel
  induction fuel with
  | zero => exact fun q visited sides h => h
  | succ fuel ih =>
    intro q visited sides h
    cases q with
    | nil => exact h
    | cons v q =>
      rw [findVertexSidesLeftLoop]
      dsimp only
      split
      · exact ih q visited sides h
      · split
        · exact ih q _ _ (selfCenterInv_write vsym sides v 0 (Or.inl rfl) h)
        · rename_i hvv
          exact ih _ _ _ (selfCenterInv_write vsym sides v 1 (Or.inr hvv) h)

theorem selfCenterInv_rightLoop (md : MeshData) (vsym : List Int) :
    ∀ (fuel : Nat) (q : List Int) (visited : List Bool) (sides : List Int),
      SelfCenterInv vsym sides →
      SelfCenterInv vsym (findVertexSidesRightLoop md vsym fuel q visited sides).2.1 := by
  intro fuel
  induction fuel with
  | zero => exact fun q visited sides h => h
  | succ fuel ih =>
    intro q visited sides h
    cases q with
    | nil => exact h
    | cons v q =>
      rw [findVertexSidesRightLoop]
      dsimp only
      split
      · exact ih q visited sides h
      · split
        · exact ih q _ _ (selfCenterInv_write vsym sides v 0 (Or.inl rfl) h)
        · rename_i hvv
          exact ih _ _ _ (selfCenterInv_write vsym sides v (-1) (Or.inr hvv) h)

/-- Counterexample to C2 as stated: on a one-vertex mesh whose only
vertex is self-symmetric and is supplied as the left seed, the side ends
up RIGHT (-1), not CENTER: the right-seed pass overwrites the CENTER with
RIGHT and the right loop skips the already-visited vertex. -/
theorem c2_counterexample :
    getI ([0] : List Int) (-1) 0 = 0 ∧
    findVertexSides md1 [0] [0] = [-1] := by
  decide

/-- C2 (amended): after the side classifier runs, every self-symmetric
vertex has side CENTER, provided no left seed is self-symmetric and no
left seed's recorded partner is self-symmetric (both automatic for an
involutive table with non-self-symmetric seeds).  A self-symmetric left
seed itself ends up RIGHT instead. -/
theorem c2_self_symmetric_center (md : MeshData) (vsym seeds : List Int)
    (hseeds : ∀ i ∈ seeds, getI vsym (-1) i ≠ i ∧
      getI vsym (-1) (getI vsym (-1) i) ≠ getI vsym (-1) i) :
    SelfCenterInv vsym (findVertexSides md vsym seeds) := by
  unfold findVertexSides
  dsimp only
  apply selfCenterInv_rightLoop
  apply selfCenterInv_rightSeedAssign _ _ _ (fun i hi => (hseeds i hi).2)
  apply selfCenterInv_leftLoop
  apply selfCenterInv_seedAssign _ _ _ (fun i hi => (hseeds i hi).1)
  intro v hv
  rcases getI_replicate md.numberOfVertices (0 : Int) 0 v with h | h <;> exact h

/-- Witness for the amended C2 at a concrete input: on `md2` with table
[1, 0] and left seed 0 no vertex is self-symmetric, and the invariant
holds of the classifier result. -/
theorem c2_self_symmetric_center_witness :
    (∀ i ∈ ([0] : List Int), getI ([1, 0] : List Int) (-1) i ≠ i ∧
      getI ([1, 0] : List Int) (-1) (getI ([1, 0] : List Int) (-1) i) ≠
        getI ([1, 0] : List Int) (-1) i) ∧
    SelfCenterInv [1, 0] (findVertexSides md2 [1, 0] [0]) :=
  ⟨by decide, c2_self_symmetric_center md2 [1, 0] [0] (by decide)⟩

/-! ### C3: counting and measure lemmas for the flood-fill loops -/

theorem count_false_set_true_le (l : List Bool) (n : Nat) :
    (l.set n true).count false ≤ l.count false := by
  induction l generalizing n with
  | nil => simp
  | cons a t ih =>
    cases n with
    | zero =>
      cases a <;> simp [List.count_cons]
    | succ m =>
      simp only [List.set_cons_succ, List.count_cons]
      have := ih m
      omega

theorem count_false_set_true_lt (l : List Bool) (n : Nat)
    (h : l[n]? = some false) :
    (l.set n true).count false < l.count false := by
  induction l generalizing n with
  | nil => simp at h
  | cons a t ih =>
    cases n with
    | zero =>
      simp at h
      subst h
      simp [List.count_cons]
    | succ m =>
      simp only [List.getElem?_cons_succ] at h
      simp only [List.set_cons_succ, List.count_cons]
      have := ih m h
      omega

theorem count_false_setI_true_le (l : List Bool) (i : Int) :
    (setI l i true).count false ≤ l.count false := by
  unfold setI
  split
  · exact count_false_set_true_le l i.toNat
  · exact Nat.le_refl _

theorem count_false_setI_true_lt (l : List Bool) (i : Int)
    (h0 : 0 ≤ i) (hlt : i.toNat < l.length) (hf : getI l false i = false) :
    (setI l i true).count false < l.count false := by
  unfold setI
  rw [if_pos h0]
  apply count_false_set_true_lt
  unfold getI at hf
  rw [if_pos h0, List.getD_eq_getElem?_getD] at hf
  rcases hx : l[i.toNat]? with _ | a
  · exact absurd (List.getElem?_eq_none_iff.mp hx) (by omega)
  · rw [hx] at hf
    simp at hf
    rw [hf]

theorem length_foldl_max_le (l : List VertexData) (m : Nat) :
    m ≤ l.foldl (fun a vd => max a vd.connectedVertices.length) m := by
  induction l generalizing m with
  | nil => exact Nat.le_refl _
  | cons a t ih =>
    exact Nat.le_trans (Nat.le_max_left m a.connectedVertices.length) (ih _)

theorem mem_length_le_foldl_max (l : List VertexData) (m : Nat) (vd : VertexData)
    (h : vd ∈ l) :
    vd.connectedVertices.length ≤ l.foldl (fun a vd => max a vd.connectedVertices.length) m := by
  induction l generalizing m with
  | nil => simp at h
  | cons a t ih =>
    rcases List.mem_cons.mp h with rfl | h
    · exact Nat.le_trans (Nat.le_max_right m vd.connectedVertices.length)
        (length_foldl_max_le t _)
    · exact ih _ h

theorem getI_vertexData_adj_le (md : MeshData) (v : Int) :
    (getI md.vertexData defVD v).connectedVertices.length ≤ maxAdj md := by
  rcases getI_mem md.vertexData defVD v with h | h
  · rw [h]
    exact Nat.zero_le _
  · exact mem_length_le_foldl_max md.vertexData 0 _ h

theorem getI_vertexData_oob (md : MeshData) (v : Int) (n : Nat)
    (hlen : md.vertexData.length ≤ n)
    (h : ¬(0 ≤ v ∧ v.toNat < n)) : getI md.vertexData defVD v = defVD := by
  rcases Int.lt_or_le v 0 with hv | hv
  · exact getI_neg _ _ _ hv
  · exact getI_oob _ _ _ (by omega)

/-- The left flood fill drains its queue when given fuel at least the
queue length plus (1 + maximum adjacency) per unvisited vertex. -/
theorem findVertexSidesLeftLoop_drain (md : MeshData) (vsym : List Int) :
    ∀ (fuel : Nat) (q : List Int) (visited : List Bool) (sides : List Int),
      md.vertexData.length ≤ visited.length →
      q.length + visited.count false * (1 + maxAdj md) ≤ fuel →
      (findVertexSidesLeftLoop md vsym fuel q visited sides).2.2 = [] := by
  intro fuel
  induction fuel with
  | zero =>
    intro q visited sides _ hmu
    have : q = [] := by
      cases q with
      | nil => rfl
      | cons a t => simp at hmu
    subst this
    rfl
  | succ fuel ih =>
    intro q visited sides hlen hfuel
    cases q with
    | nil => rfl
    | cons v q =>
      simp only [List.length_cons] at hfuel
      rw [findVertexSidesLeftLoop]
      dsimp only
      split
      · exact ih q visited sides hlen (by omega)
      · rename_i hvis
        have hsetlen : (setI visited v true).length = visited.length := length_setI _ _ _
        have hle : (setI visited v true).count false ≤ visited.count false :=
          count_false_setI_true_le visited v
        have hmul : (setI visited v true).count false * (1 + maxAdj md) ≤
            visited.count false * (1 + maxAdj md) :=
          Nat.mul_le_mul_right _ hle
        split
        · exact ih q _ _ (by omega) (by omega)
        · by_cases hin : 0 ≤ v ∧ v.toNat < visited.length
          · have hstrict := count_false_setI_true_lt visited v hin.1 hin.2
              (by simpa using hvis)
            have hsucc : (setI visited v true).count false + 1 ≤ visited.count false := hstrict
            have hmul2 : (setI visited v true).count false * (1 + maxAdj md) +
                (1 + maxAdj md) ≤ visited.count false * (1 + maxAdj md) := by
              calc (setI visited v true).count false * (1 + maxAdj md) + (1 + maxAdj md)
                  = ((setI visited v true).count false + 1) * (1 + maxAdj md) := by ring
                _ ≤ visited.count false * (1 + maxAdj md) :=
                  Nat.mul_le_mul_right _ hsucc
            have hpush : ((getI md.vertexData defVD v).connectedVertices.filter
                (fun i => !(getI (setI visited v true) false i) &&
                  (getI vsym (-1) i != v))).length ≤ maxAdj md :=
              Nat.le_trans (List.length_filter_le _ _) (getI_vertexData_adj_le md v)
            apply ih _ _ _ (by omega)
            simp only [List.length_append]
            omega
          · have hvd : getI md.vertexData defVD v = defVD :=
              getI_vertexData_oob md v visited.length hlen hin
            apply ih _ _ _ (by omega)
            rw [hvd]
            simp only [defVD, List.filter_nil, List.length_append, List.length_nil]
            omega

theorem getI_setI_true_mono (l : List Bool) (u v : Int)
    (h : getI l false v = true) : getI (setI l u true) false v = true := by
  by_cases hvu : v = u
  · subst hvu
    rcases getI_setI_cases l false v true with h' | h' <;> rw [h']
    exact h
  · rw [getI_setI_ne _ _ _ _ _ hvu]
    exact h

theorem findVertexSidesLeftLoop_visited_mono (md : MeshData) (vsym : List Int) :
    ∀ (fuel : Nat) (q : List Int) (visited : List Bool) (sides : List Int) (v : Int),
      getI visited false v = true →
      getI (findVertexSidesLeftLoop md vsym fuel q visited sides).1 false v = true := by
  intro fuel
  induction fuel with
  | zero => exact fun q visited sides v h => h
  | succ fuel ih =>
    intro q visited sides v h
    cases q with
    | nil => exact h
    | cons u q =>
      rw [findVertexSidesLeftLoop]
      dsimp only
      split
      · exact ih q visited sides v h
      · split
        · exact ih q _ _ v (getI_setI_true_mono _ _ _ h)
        · exact ih _ _ _ v (getI_setI_true_mono _ _ _ h)

theorem findVertexSidesRightLoop_visited_mono (md : MeshData) (vsym : List Int) :
    ∀ (fuel : Nat) (q : List Int) (visited : List Bool) (sides : List Int) (v : Int),
      getI visited false v = true →
      getI (findVertexSidesRightLoop md vsym fuel q visited sides).1 false v = true := by
  intro fuel
  induction fuel with
  | zero => exact fun q visited sides v h => h
  | succ fuel ih =>
    intro q visited sides v h
    cases q with
    | nil => exact h
    | cons u q =>
      rw [findVertexSidesRightLoop]
      dsimp only
      split
      · exact ih q visited sides v h
      · split
        · exact ih q _ _ v (getI_setI_true_mono _ _ _ h)
        · exact ih _ _ _ v (getI_setI_true_mono _ _ _ h)

/-- When the left flood fill drains its queue, every in-range vertex that
was on the queue ends up visited. -/
theorem findVertexSidesLeftLoop_queue_visited (md : MeshData) (vsym : List Int) :
    ∀ (fuel : Nat) (q : List Int) (visited : List Bool) (sides : List Int),
      (findVertexSidesLeftLoop md vsym fuel q visited sides).2.2 = [] →
      ∀ x ∈ q, 0 ≤ x → x.toNat < visited.length →
      getI (findVertexSidesLeftLoop md vsym fuel q visited sides).1 false x = true := by
  intro fuel
  induction fuel with
  | zero =>
    intro q visited sides hq x hx
    rw [show (findVertexSidesLeftLoop md vsym 0 q visited sides).2.2 = q from rfl] at hq
    subst hq
    simp at hx
  | succ fuel ih =>
    intro q visited sides hq x hx h0 hlt
    cases q with
    | nil => simp at hx
    | cons u q =>
      rw [findVertexSidesLeftLoop] at hq ⊢
      dsimp only at hq ⊢
      by_cases hc1 : getI visited false u = true
      · rw [if_pos hc1] at hq ⊢
        rcases List.mem_cons.mp hx with rfl | hxq
        · exact findVertexSidesLeftLoop_visited_mono md vsym fuel q visited sides x hc1
        · exact ih q visited sides hq x hxq h0 hlt
      · rw [if_neg hc1] at hq ⊢
        by_cases hc2 : getI vsym (-1) u = u
        · rw [if_pos hc2] at hq ⊢
          rcases List.mem_cons.mp hx with rfl | hxq
          · exact findVertexSidesLeftLoop_visited_mono md vsym fuel q _ _ x
              (getI_setI_self visited false x true h0 hlt)
          · exact ih q _ _ hq x hxq h0 (by rw [length_setI]; exact hlt)
        · rw [if_neg hc2] at hq ⊢
          rcases List.mem_cons.mp hx with rfl | hxq
          · exact findVertexSidesLeftLoop_visited_mono md vsym fuel _ _ _ x
              (getI_setI_self visited false x true h0 hlt)
          · exact ih _ _ _ hq x (List.mem_append_left _ hxq) h0
              (by rw [length_setI]; exact hlt)

theorem getI_setI_keep (l : List Int) (d i u c : Int) (h : getI l d i = c) :
    getI (setI l u c) d i = c := by
  by_cases hiu : i = u
  · subst hiu
    rcases getI_setI_cases l d i c with h' | h' <;> rw [h']
    exact h
  · rw [getI_setI_ne _ _ _ _ _ hiu]
    exact h

theorem foldl_setI_keep_seed (i : Int) :
    ∀ (xs sides : List Int), getI sides 0 i = 1 →
      getI (xs.foldl (fun sd j => setI sd j 1) sides) 0 i = 1 := by
  intro xs
  induction xs with
  | nil => exact fun sides h => h
  | cons a t ih =>
    intro sides h
    rw [List.foldl_cons]
    exact ih _ (getI_setI_keep sides 0 i a 1 h)

theorem length_foldl_seedAssign :
    ∀ (xs sides : List Int), (xs.foldl (fun sd j => setI sd j 1) sides).length =
      sides.length := by
  intro xs
  induction xs with
  | nil => exact fun sides => rfl
  | cons a t ih =>
    intro sides
    rw [List.foldl_cons, ih, length_setI]

theorem seedAssign_eq_one (i : Int) :
    ∀ (xs sides : List Int), i ∈ xs → 0 ≤ i → i.toNat < sides.length →
      getI (xs.foldl (fun sd j => setI sd j 1) sides) 0 i = 1 := by
  intro xs
  induction xs with
  | nil => intro sides h; simp at h
  | cons a t ih =>
    intro sides hmem h0 hlt
    rw [List.foldl_cons]
    rcases List.mem_cons.mp hmem with rfl | hmem
    · exact foldl_setI_keep_seed i t _ (getI_setI_self _ _ _ _ h0 hlt)
    · exact ih _ hmem h0 (by rw [length_setI]; exact hlt)

theorem foldl_setI_keep_rightSeed (vsym : List Int) (w : Int) :
    ∀ (xs sides : List Int), getI sides 0 w = -1 →
      getI (xs.foldl (fun sd j => setI sd (getI vsym (-1) j) (-1)) sides) 0 w = -1 := by
  intro xs
  induction xs with
  | nil => exact fun sides h => h
  | cons a t ih =>
    intro sides h
    rw [List.foldl_cons]
    exact ih _ (getI_setI_keep sides 0 w _ (-1) h)

theorem rightSeedAssign_eq_negone (vsym : List Int) (i : Int) :
    ∀ (xs sides : List Int), i ∈ xs → 0 ≤ getI vsym (-1) i →
      (getI vsym (-1) i).toNat < sides.length →
      getI (xs.foldl (fun sd j => setI sd (getI vsym (-1) j) (-1)) sides) 0
        (getI vsym (-1) i) = -1 := by
  intro xs
  induction xs with
  | nil => intro sides h; simp at h
  | cons a t ih =>
    intro sides hmem h0 hlt
    rw [List.foldl_cons]
    rcases List.mem_cons.mp hmem with rfl | hmem
    · exact foldl_setI_keep_rightSeed vsym _ t _ (getI_setI_self _ _ _ _ h0 hlt)
    · exact ih _ hmem h0 (by rw [length_setI]; exact hlt)

theorem rightSeedAssign_ne (vsym : List Int) (i : Int) :
    ∀ (xs sides : List Int), (∀ j ∈ xs, getI vsym (-1) j ≠ i) →
      getI (xs.foldl (fun sd j => setI sd (getI vsym (-1) j) (-1)) sides) 0 i =
        getI sides 0 i := by
  intro xs
  induction xs with
  | nil => exact fun sides _ => rfl
  | cons a t ih =>
    intro sides hne
    rw [List.foldl_cons, ih _ (fun j hj => hne j (List.mem_cons_of_mem a hj))]
    exact getI_setI_ne _ _ _ _ _ (Ne.symm (hne a (List.mem_cons_self a t)))

theorem findVertexSidesLeftLoop_sides_length (md : MeshData) (vsym : List Int) :
    ∀ (fuel : Nat) (q : List Int) (visited : List Bool) (sides : List Int),
      ((findVertexSidesLeftLoop md vsym fuel q visited sides).2.1).length =
        sides.length := by
  intro fuel
  induction fuel with
  | zero => exact fun q visited sides => rfl
  | succ fuel ih =>
    intro q visited sides
    cases q with
    | nil => rfl
    | cons u q =>
      rw [findVertexSidesLeftLoop]
      dsimp only
      split
      · exact ih q visited sides
      · split
        · rw [ih, length_setI]
        · rw [ih, length_setI]

theorem findVertexSidesLeftLoop_keep_one (md : MeshData) (vsym : List Int) (i : Int)
    (hsym : getI vsym (-1) i ≠ i) :
    ∀ (fuel : Nat) (q : List Int) (visited : List Bool) (sides : List Int),
      getI sides 0 i = 1 →
      getI (findVertexSidesLeftLoop md vsym fuel q visited sides).2.1 0 i = 1 := by
  intro fuel
  induction fuel with
  | zero => exact fun q visited sides h => h
  | succ fuel ih =>
    intro q visited sides h
    cases q with
    | nil => exact h
    | cons u q =>
      rw [findVertexSidesLeftLoop]
      dsimp only
      split
      · exact ih q visited sides h
      · split
        · rename_i hc2
          refine ih q _ _ ?_
          rw [getI_setI_ne _ _ _ _ _ ?_]
          · exact h
          · intro hiu
            rw [hiu] at hsym
            exact hsym hc2
        · exact ih _ _ _ (getI_setI_keep sides 0 i u 1 h)

theorem findVertexSidesRightLoop_keep_one (md : MeshData) (vsym : List Int) (i : Int) :
    ∀ (fuel : Nat) (q : List Int) (visited : List Bool) (sides : List Int),
      getI visited false i = true → getI sides 0 i = 1 →
      getI (findVertexSidesRightLoop md vsym fuel q visited sides).2.1 0 i = 1 := by
  intro fuel
  induction fuel with
  | zero => exact fun q visited sides _ h => h
  | succ fuel ih =>
    intro q visited sides hvisi h
    cases q with
    | nil => exact h
    | cons u q =>
      rw [findVertexSidesRightLoop]
      dsimp only
      split
      · exact ih q visited sides hvisi h
      · rename_i hc1
        have hui : i ≠ u := by
          intro hiu
          rw [← hiu] at hc1
          exact hc1 hvisi
        split
        · exact ih q _ _ (getI_setI_true_mono _ _ _ hvisi)
            (by rw [getI_setI_ne _ _ _ _ _ hui]; exact h)
        · exact ih _ _ _ (getI_setI_true_mono _ _ _ hvisi)
            (by rw [getI_setI_ne _ _ _ _ _ hui]; exact h)

theorem findVertexSidesRightLoop_keep_neg (md : MeshData) (vsym : List Int) (w : Int)
    (hsym : getI vsym (-1) w ≠ w) :
    ∀ (fuel : Nat) (q : List Int) (visited : List Bool) (sides : List Int),
      getI sides 0 w = -1 →
      getI (findVertexSidesRightLoop md vsym fuel q visited sides).2.1 0 w = -1 := by
  intro fuel
  induction fuel with
  | zero => exact fun q visited sides h => h
  | succ fuel ih =>
    intro q visited sides h
    cases q with
    | nil => exact h
    | cons u q =>
      rw [findVertexSidesRightLoop]
      dsimp only
      split
      · exact ih q visited sides h
      · split
        · rename_i hc2
          refine ih q _ _ ?_
          rw [getI_setI_ne _ _ _ _ _ ?_]
          · exact h
          · intro hwu
            rw [hwu] at hsym
            exact hsym hc2
        · exact ih _ _ _ (getI_setI_keep sides 0 w u (-1) h)

/-- Counterexample to C3 as stated: on `md2` with the involutive table
[1, 0] both vertices are resolved and not self-symmetric, yet with no
left seeds the classifier leaves both sides CENTER — equal and CENTER,
contradicting the claim. -/
theorem c3_counterexample :
    getI ([1, 0] : List Int) (-1) 0 = 1 ∧ (1 : Int) ≠ 0 ∧
    findVertexSides md2 [1, 0] [] = [0, 0] := by
  decide

/-- C3 (amended): opposite sides hold for the seed pairs: for every left
seed `i` (seeds in range, with in-range partners, involutive at seeds,
and no seed the partner of a seed — which also rules out self-symmetric
seeds), the classifier ends with `side[i] = LEFT` and
`side[symmetryIndex[i]] = RIGHT`: different sides, neither CENTER.
Resolved pairs not reached by the flood fills (e.g. with no seed in
their shell) instead keep both sides CENTER. -/
theorem c3_seed_pairs_opposite (md : MeshData) (vsym seeds : List Int)
    (hlen : md.vertexData.length ≤ md.numberOfVertices)
    (hrange : ∀ i ∈ seeds, 0 ≤ i ∧ i.toNat < md.numberOfVertices)
    (hprange : ∀ i ∈ seeds, 0 ≤ getI vsym (-1) i ∧
      (getI vsym (-1) i).toNat < md.numberOfVertices)
    (hinv : ∀ i ∈ seeds, getI vsym (-1) (getI vsym (-1) i) = i)
    (hnp : ∀ i ∈ seeds, ∀ j ∈ seeds, getI vsym (-1) i ≠ j) :
    ∀ i ∈ seeds,
      getI (findVertexSides md vsym seeds) 0 i = 1 ∧
      getI (findVertexSides md vsym seeds) 0 (getI vsym (-1) i) = -1 := by
  intro i hi
  have hselfne : getI vsym (-1) i ≠ i := hnp i hi i hi
  constructor
  · unfold findVertexSides
    dsimp only
    apply findVertexSidesRightLoop_keep_one
    · apply findVertexSidesLeftLoop_queue_visited
      · apply findVertexSidesLeftLoop_drain
        · simpa using hlen
        · simp only [List.count_replicate, List.length_replicate, beq_self_eq_true,
            if_true]
          omega
      · exact hi
      · exact (hrange i hi).1
      · simpa using (hrange i hi).2
    · rw [rightSeedAssign_ne vsym i seeds _ (fun j hj => hnp j hj i hi)]
      apply findVertexSidesLeftLoop_keep_one md vsym i hselfne
      apply seedAssign_eq_one i seeds _ hi (hrange i hi).1
      simpa using (hrange i hi).2
  · unfold findVertexSides
    dsimp only
    apply findVertexSidesRightLoop_keep_neg
    · rw [hinv i hi]
      exact Ne.symm hselfne
    · apply rightSeedAssign_eq_negone vsym i seeds _ hi (hprange i hi).1
      rw [findVertexSidesLeftLoop_sides_length, length_foldl_seedAssign]
      simpa using (hprange i hi).2

/-- Witness for the amended C3 at a concrete input: on `md2` with table
[1, 0] and left seed 0 the classifier gives side 1 to vertex 0 and side
-1 to its partner vertex 1. -/
theorem c3_seed_pairs_opposite_witness :
    (md2.vertexData.length ≤ md2.numberOfVertices ∧
     (∀ i ∈ ([0] : List Int), 0 ≤ i ∧ i.toNat < md2.numberOfVertices) ∧
     (∀ i ∈ ([0] : List Int), 0 ≤ getI ([1, 0] : List Int) (-1) i ∧
       (getI ([1, 0] : List Int) (-1) i).toNat < md2.numberOfVertices) ∧
     (∀ i ∈ ([0] : List Int),
       getI ([1, 0] : List Int) (-1) (getI ([1, 0] : List Int) (-1) i) = i) ∧
     (∀ i ∈ ([0] : List Int), ∀ j ∈ ([0] : List Int),
       getI ([1, 0] : List Int) (-1) i ≠ j)) ∧
    (∀ i ∈ ([0] : List Int),
      getI (findVertexSides md2 [1, 0] [0]) 0 i = 1 ∧
      getI (findVertexSides md2 [1, 0] [0]) 0 (getI ([1, 0] : List Int) (-1) i) = -1) :=
  ⟨⟨by decide, by decide, by decide, by decide, by decide⟩,
    c3_seed_pairs_opposite md2 [1, 0] [0] (by decide) (by decide) (by decide)
      (by decide) (by decide)⟩

/-! ### C10: bounds-checked side classifier -/

theorem getC_eq (l : List Int) (d : Int) (i : Int)
    (h0 : 0 ≤ i) (hlt : i.toNat < l.length) : getC l i = some (getI l d i) := by
  unfold getC getI
  rw [if_pos h0, if_pos h0, List.get?_eq_getElem?, List.getElem?_eq_getElem hlt,
    List.getD_eq_getElem?_getD, List.getElem?_eq_getElem hlt]
  rfl

theorem getC_isSome {α : Type} (l : List α) (i : Int)
    (h0 : 0 ≤ i) (hlt : i.toNat < l.length) : ∃ a, getC l i = some a ∧ a ∈ l := by
  unfold getC
  rw [if_pos h0, List.get?_eq_getElem?, List.getElem?_eq_getElem hlt]
  exact ⟨l[i.toNat], rfl, List.getElem_mem hlt⟩

theorem setC_eq {α : Type} (l : List α) (i : Int) (v : α)
    (h0 : 0 ≤ i) (hlt : i.toNat < l.length) : setC l i v = some (setI l i v) := by
  unfold setC setI
  rw [if_pos (⟨h0, hlt⟩ : 0 ≤ i ∧ i.toNat < l.length), if_pos h0]

theorem leftPushesChecked_some (vsym : List Int) (visited : List Bool)
    (vertexIndex : Int) (n : Nat) (hvis : visited.length = n) (hsym : vsym.length = n) :
    ∀ xs : List Int, (∀ x ∈ xs, 0 ≤ x ∧ x.toNat < n) →
    ∃ p, leftPushesChecked vsym visited vertexIndex xs = some p ∧ ∀ y ∈ p, y ∈ xs := by
  intro xs
  induction xs with
  | nil => exact fun _ => ⟨[], rfl, by simp⟩
  | cons i rest ih =>
    intro hxs
    obtain ⟨p, hp, hsub⟩ := ih (fun x hx => hxs x (List.mem_cons_of_mem i hx))
    have hi := hxs i (List.mem_cons_self i rest)
    obtain ⟨b, hb, _⟩ := getC_isSome visited i hi.1 (by omega)
    rw [leftPushesChecked]
    rw [hb]
    cases b with
    | true =>
      refine ⟨p, ?_, fun y hy => List.mem_cons_of_mem i (hsub y hy)⟩
      simp only [Option.bind_eq_bind, Option.some_bind, hp]
      rfl
    | false =>
      obtain ⟨c, hc, _⟩ := getC_isSome vsym i hi.1 (by omega)
      refine ⟨if (c != vertexIndex) then i :: p else p, ?_, ?_⟩
      · simp only [Option.bind_eq_bind, Option.some_bind, hc, hp]
        rfl
      · intro y hy
        split at hy
        · rcases List.mem_cons.mp hy with rfl | hy
          · exact List.mem_cons_self y rest
          · exact List.mem_cons_of_mem i (hsub y hy)
        · exact List.mem_cons_of_mem i (hsub y hy)

theorem rightPushesChecked_some (visited : List Bool) (n : Nat)
    (hvis : visited.length = n) :
    ∀ xs : List Int, (∀ x ∈ xs, 0 ≤ x ∧ x.toNat < n) →
    ∃ p, rightPushesChecked visited xs = some p ∧ ∀ y ∈ p, y ∈ xs := by
  intro xs
  induction xs with
  | nil => exact fun _ => ⟨[], rfl, by simp⟩
  | cons i rest ih =>
    intro hxs
    obtain ⟨p, hp, hsub⟩ := ih (fun x hx => hxs x (List.mem_cons_of_mem i hx))
    have hi := hxs i (List.mem_cons_self i rest)
    obtain ⟨b, hb, _⟩ := getC_isSome visited i hi.1 (by omega)
    rw [rightPushesChecked]
    rw [hb]
    refine ⟨if b then p else i :: p, ?_, ?_⟩
    · simp only [Option.bind_eq_bind, Option.some_bind, hp]
      cases b <;> rfl
    · intro y hy
      split at hy
      · exact List.mem_cons_of_mem i (hsub y hy)
      · rcases List.mem_cons.mp hy with rfl | hy
        · exact List.mem_cons_self y rest
        · exact List.mem_cons_of_mem i (hsub y hy)

theorem findVertexSidesLeftLoopChecked_some (md : MeshData) (vsym : List Int) (n : Nat)
    (hn : md.vertexData.length = n) (hsym : vsym.length = n)
    (hadj : ∀ vd ∈ md.vertexData, ∀ x ∈ vd.connectedVertices, 0 ≤ x ∧ x.toNat < n) :
    ∀ (fuel : Nat) (q : List Int) (visited : List Bool) (sides : List Int),
      visited.length = n → sides.length = n →
      (∀ x ∈ q, 0 ≤ x ∧ x.toNat < n) →
      ∃ r, findVertexSidesLeftLoopChecked md vsym fuel q visited sides = some r ∧
        r.1.length = n ∧ r.2.1.length = n ∧ (∀ x ∈ r.2.2, 0 ≤ x ∧ x.toNat < n) := by
  intro fuel
  induction fuel with
  | zero =>
    intro q visited sides hv hs hq
    exact ⟨(visited, sides, q), rfl, hv, hs, hq⟩
  | succ fuel ih =>
    intro q visited sides hv hs hq
    cases q with
    | nil => exact ⟨(visited, sides, []), rfl, hv, hs, by simp⟩
    | cons v q =>
      have hvq := hq v (List.mem_cons_self v q)
      have hqt : ∀ x ∈ q, 0 ≤ x ∧ x.toNat < n :=
        fun x hx => hq x (List.mem_cons_of_mem v hx)
      obtain ⟨b, hb, _⟩ := getC_isSome visited v hvq.1 (by omega)
      rw [findVertexSidesLeftLoopChecked]
      rw [hb]
      simp only [Option.bind_eq_bind, Option.some_bind]
      cases b with
      | true =>
        simp only [if_pos rfl]
        exact ih q visited sides hv hs hqt
      | false =>
        simp only [Bool.false_eq_true, if_false]
        rw [setC_eq visited v true hvq.1 (by omega)]
        obtain ⟨c, hc, _⟩ := getC_isSome vsym v hvq.1 (by omega)
        rw [hc]
        simp only [Option.some_bind]
        have hv' : (setI visited v true).length = n := by rw [length_setI]; exact hv
        by_cases hcv : c = v
        · rw [if_pos hcv, setC_eq sides v 0 hvq.1 (by omega)]
          simp only [Option.some_bind]
          exact ih q _ _ hv' (by rw [length_setI]; exact hs) hqt
        · rw [if_neg hcv, setC_eq sides v 1 hvq.1 (by omega)]
          simp only [Option.some_bind]
          obtain ⟨vd, hvd, hvdmem⟩ := getC_isSome md.vertexData v hvq.1 (by omega)
          rw [hvd]
          simp only [Option.some_bind]
          obtain ⟨p, hp, hpsub⟩ := leftPushesChecked_some vsym (setI visited v true) v n
            hv' hsym vd.connectedVertices (hadj vd hvdmem)
          rw [hp]
          simp only [Option.some_bind]
          refine ih (q ++ p) _ _ hv' (by rw [length_setI]; exact hs) ?_
          intro x hx
          rcases List.mem_append.mp hx with hx | hx
          · exact hqt x hx
          · exact hadj vd hvdmem x (hpsub x hx)

theorem findVertexSidesRightLoopChecked_some (md : MeshData) (vsym : List Int) (n : Nat)
    (hn : md.vertexData.length = n) (hsym : vsym.length = n)
    (hadj : ∀ vd ∈ md.vertexData, ∀ x ∈ vd.connectedVertices, 0 ≤ x ∧ x.toNat < n) :
    ∀ (fuel : Nat) (q : List Int) (visited : List Bool) (sides : List Int),
      visited.length = n → sides.length = n →
      (∀ x ∈ q, 0 ≤ x ∧ x.toNat < n) →
      ∃ r, findVertexSidesRightLoopChecked md vsym fuel q visited sides = some r ∧
        r.1.length = n ∧ r.2.1.length = n ∧ (∀ x ∈ r.2.2, 0 ≤ x ∧ x.toNat < n) := by
  intro fuel
  induction fuel with
  | zero =>
    intro q visited sides hv hs hq
    exact ⟨(visited, sides, q), rfl, hv, hs, hq⟩
  | succ fuel ih =>
    intro q visited sides hv hs hq
    cases q with
    | nil => exact ⟨(visited, sides, []), rfl, hv, hs, by simp⟩
    | cons v q =>
      have hvq := hq v (List.mem_cons_self v q)
      have hqt : ∀ x ∈ q, 0 ≤ x ∧ x.toNat < n :=
        fun x hx => hq x (List.mem_cons_of_mem v hx)
      obtain ⟨b, hb, _⟩ := getC_isSome visited v hvq.1 (by omega)
      rw [findVertexSidesRightLoopChecked]
      rw [hb]
      simp only [Option.bind_eq_bind, Option.some_bind]
      cases b with
      | true =>
        simp only [if_pos rfl]
        exact ih q visited sides hv hs hqt
      | false =>
        simp only [Bool.false_eq_true, if_false]
        rw [setC_eq visited v true hvq.1 (by omega)]
        obtain ⟨c, hc, _⟩ := getC_isSome vsym v hvq.1 (by omega)
        rw [hc]
        simp only [Option.some_bind]
        have hv' : (setI visited v true).length = n := by rw [length_setI]; exact hv
        by_cases hcv : c = v
        · rw [if_pos hcv, setC_eq sides v 0 hvq.1 (by omega)]
          simp only [Option.some_bind]
          exact ih q _ _ hv' (by rw [length_setI]; exact hs) hqt
        · rw [if_neg hcv, setC_eq sides v (-1) hvq.1 (by omega)]
          simp only [Option.some_bind]
          obtain ⟨vd, hvd, hvdmem⟩ := getC_isSome md.vertexData v hvq.1 (by omega)
          rw [hvd]
          simp only [Option.some_bind]
          obtain ⟨p, hp, hpsub⟩ := rightPushesChecked_some (setI visited v true) n
            hv' vd.connectedVertices (hadj vd hvdmem)
          rw [hp]
          simp only [Option.some_bind]
          refine ih (q ++ p) _ _ hv' (by rw [length_setI]; exact hs) ?_
          intro x hx
          rcases List.mem_append.mp hx with hx | hx
          · exact hqt x hx
          · exact hadj vd hvdmem x (hpsub x hx)

theorem leftSeedAssignChecked_some (n : Nat) :
    ∀ (xs : List Int) (sides : List Int), sides.length = n →
      (∀ x ∈ xs, 0 ≤ x ∧ x.toNat < n) →
      ∃ r, leftSeedAssignChecked sides xs = some r ∧ r.length = n := by
  intro xs
  induction xs with
  | nil => exact fun sides hs _ => ⟨sides, rfl, hs⟩
  | cons i rest ih =>
    intro sides hs hxs
    have hi := hxs i (List.mem_cons_self i rest)
    rw [leftSeedAssignChecked, setC_eq sides i 1 hi.1 (by omega)]
    simp only [Option.bind_eq_bind, Option.some_bind]
    exact ih _ (by rw [length_setI]; exact hs)
      (fun x hx => hxs x (List.mem_cons_of_mem i hx))

theorem rightSeedAssignChecked_some (vsym : List Int) (n : Nat)
    (hsym : vsym.length = n) :
    ∀ (xs : List Int) (sides : List Int), sides.length = n →
      (∀ x ∈ xs, 0 ≤ x ∧ x.toNat < n) →
      (∀ x ∈ xs, 0 ≤ getI vsym (-1) x ∧ (getI vsym (-1) x).toNat < n) →
      ∃ r, rightSeedAssignChecked vsym sides xs = some r ∧ r.1.length = n ∧
        (∀ y ∈ r.2, 0 ≤ y ∧ y.toNat < n) := by
  intro xs
  induction xs with
  | nil => exact fun sides hs _ _ => ⟨(sides, []), rfl, hs, by simp⟩
  | cons i rest ih =>
    intro sides hs hxs hres
    have hi := hxs i (List.mem_cons_self i rest)
    have hri := hres i (List.mem_cons_self i rest)
    rw [rightSeedAssignChecked, getC_eq vsym (-1) i hi.1 (by omega)]
    simp only [Option.bind_eq_bind, Option.some_bind]
    rw [setC_eq sides _ (-1) hri.1 (by omega)]
    simp only [Option.some_bind]
    obtain ⟨r, hr, hrlen, hrq⟩ := ih (setI sides (getI vsym (-1) i) (-1))
      (by rw [length_setI]; exact hs)
      (fun x hx => hxs x (List.mem_cons_of_mem i hx))
      (fun x hx => hres x (List.mem_cons_of_mem i hx))
    rw [hr]
    simp only [Option.some_bind]
    refine ⟨(r.1, getI vsym (-1) i :: r.2), rfl, hrlen, ?_⟩
    intro y hy
    rcases List.mem_cons.mp hy with rfl | hy
    · exact hri
    · exact hrq y hy

/-- C10: the side classifier reads `vertexSymmetryIndices[i]` for every
left seed and indexes `vertexSides` with it, without checking the `-1`
sentinel.  Under the precondition that every left seed is in range and
resolved with an in-range partner (and the topology's adjacency is in
range), every array access in `findVertexSides` is in bounds — the
bounds-checked model returns `some`.  Without that precondition the `-1`
branch is reachable: on `md1` with table `[-1]` and seed `[0]` the
checked model hits the out-of-bounds write `vertexSides[-1]` and returns
`none`. -/
theorem c10_left_seed_partner_access (md : MeshData) (vsym seeds : List Int)
    (hvd : md.vertexData.length = md.numberOfVertices)
    (hsym : vsym.length = md.numberOfVertices)
    (hadj : ∀ vd ∈ md.vertexData, ∀ x ∈ vd.connectedVertices,
      0 ≤ x ∧ x.toNat < md.numberOfVertices)
    (hseeds : ∀ i ∈ seeds, 0 ≤ i ∧ i.toNat < md.numberOfVertices)
    (hres : ∀ i ∈ seeds, 0 ≤ getI vsym (-1) i ∧
      (getI vsym (-1) i).toNat < md.numberOfVertices) :
    (findVertexSidesChecked md vsym seeds).isSome = true ∧
    findVertexSidesChecked md1 [-1] [0] = none := by
  constructor
  · unfold findVertexSidesChecked
    dsimp only
    obtain ⟨s1, h1, h1len⟩ := leftSeedAssignChecked_some md.numberOfVertices seeds
      (List.replicate md.numberOfVertices 0) (by simp) hseeds
    rw [h1]
    simp only [Option.bind_eq_bind, Option.some_bind]
    obtain ⟨r1, hr1, hr1v, hr1s, hr1q⟩ := findVertexSidesLeftLoopChecked_some md vsym
      md.numberOfVertices hvd hsym hadj
      (seeds.length + md.numberOfVertices * (1 + maxAdj md) + 1) seeds
      (List.replicate md.numberOfVertices false) s1 (by simp) h1len hseeds
    rw [hr1]
    simp only [Option.some_bind]
    obtain ⟨r2, hr2, hr2len, hr2q⟩ := rightSeedAssignChecked_some vsym
      md.numberOfVertices hsym seeds r1.2.1 hr1s hseeds hres
    rw [hr2]
    simp only [Option.some_bind]
    have hq3 : ∀ x ∈ r1.2.2 ++ r2.2, 0 ≤ x ∧ x.toNat < md.numberOfVertices := by
      intro x hx
      rcases List.mem_append.mp hx with hx | hx
      · exact hr1q x hx
      · exact hr2q x hx
    obtain ⟨r3, hr3, _, _, _⟩ := findVertexSidesRightLoopChecked_some md vsym
      md.numberOfVertices hvd hsym hadj
      ((r1.2.2 ++ r2.2).length + md.numberOfVertices * (1 + maxAdj md) + 1)
      (r1.2.2 ++ r2.2) r1.1 r2.1 hr1v hr2len hq3
    rw [hr3]
    simp
  · decide

/-- Witness for the amended C10 at a concrete input: on `md2` with the
resolved table [1, 0] and seed [0] the checked classifier succeeds; the
`none` case is itself concrete. -/
theorem c10_left_seed_partner_access_witness :
    (md2.vertexData.length = md2.numberOfVertices ∧
     ([1, 0] : List Int).length = md2.numberOfVertices ∧
     (∀ vd ∈ md2.vertexData, ∀ x ∈ vd.connectedVertices,
       0 ≤ x ∧ x.toNat < md2.numberOfVertices) ∧
     (∀ i ∈ ([0] : List Int), 0 ≤ i ∧ i.toNat < md2.numberOfVertices) ∧
     (∀ i ∈ ([0] : List Int), 0 ≤ getI ([1, 0] : List Int) (-1) i ∧
       (getI ([1, 0] : List Int) (-1) i).toNat < md2.numberOfVertices)) ∧
    ((findVertexSidesChecked md2 [1, 0] [0]).isSome = true ∧
     findVertexSidesChecked md1 [-1] [0] = none) :=
  ⟨⟨by decide, by decide, by decide, by decide, by decide⟩,
    c10_left_seed_partner_access md2 [1, 0] [0] (by decide) (by decide) (by decide)
      (by decide) (by decide)⟩

/-! ### C7: termination of the propagation engine's worklist loop -/

theorem fsvofLoop_edge_face_fields (md : MeshData) (facePair : Int × Int) :
    ∀ (fuel : Nat) (q : List Int) (s : PolySymmetryData),
      (findSymmetricalVerticesOnFaceLoop md facePair fuel q s).examinedEdges =
        s.examinedEdges ∧
      (findSymmetricalVerticesOnFaceLoop md facePair fuel q s).edgeSymmetryIndices =
        s.edgeSymmetryIndices ∧
      (findSymmetricalVerticesOnFaceLoop md facePair fuel q s).examinedFaces =
        s.examinedFaces ∧
      (findSymmetricalVerticesOnFaceLoop md facePair fuel q s).faceSymmetryIndices =
        s.faceSymmetryIndices := by
  intro fuel
  induction fuel with
  | zero => exact fun q s => ⟨rfl, rfl, rfl, rfl⟩
  | succ fuel ih =>
    intro q s
    cases q with
    | nil => exact ⟨rfl, rfl, rfl, rfl⟩
    | cons v q =>
      rw [findSymmetricalVerticesOnFaceLoop]
      split
      · exact ih q s
      · exact ih (q ++ [getUnexaminedVertexSibling md s v facePair.1]) _

theorem fsvof_edge_face_fields (md : MeshData) (s : PolySymmetryData)
    (facePair : Int × Int) :
    (findSymmetricalVerticesOnFace md s facePair).examinedEdges = s.examinedEdges ∧
    (findSymmetricalVerticesOnFace md s facePair).edgeSymmetryIndices =
      s.edgeSymmetryIndices ∧
    (findSymmetricalVerticesOnFace md s facePair).examinedFaces = s.examinedFaces ∧
    (findSymmetricalVerticesOnFace md s facePair).faceSymmetryIndices =
      s.faceSymmetryIndices := by
  unfold findSymmetricalVerticesOnFace
  exact fsvofLoop_edge_face_fields md facePair _ _ s

theorem findFirst_edge_fields (md : MeshData) (s : PolySymmetryData)
    (selection : ComponentSelection) :
    (findFirstSymmetricalVertices md s selection).examinedEdges = s.examinedEdges ∧
    (findFirstSymmetricalVertices md s selection).edgeSymmetryIndices =
      s.edgeSymmetryIndices := by
  unfold findFirstSymmetricalVertices
  dsimp only
  refine ⟨?_, ?_⟩
  · rw [(fsvof_edge_face_fields md _ _).1]
    rfl
  · rw [(fsvof_edge_face_fields md _ _).2.1]
    rfl

theorem markE_count_le (s : PolySymmetryData) (a b : Int) :
    (markSymmetricalEdges s a b).examinedEdges.count false ≤
      s.examinedEdges.count false :=
  Nat.le_trans (count_false_setI_true_le _ _) (count_false_setI_true_le _ _)

theorem markE_length (s : PolySymmetryData) (a b : Int) :
    (markSymmetricalEdges s a b).examinedEdges.length = s.examinedEdges.length := by
  unfold markSymmetricalEdges
  dsimp only
  rw [length_setI, length_setI]

theorem fseofStep_accounting (md : MeshData)
    (sq : PolySymmetryData × List (Int × Int)) (e : Int)
    (he : 0 ≤ e ∧ e.toNat < sq.1.examinedEdges.length) :
    (findSymmetricalEdgesOnFaceStep md sq e).1.examinedEdges.length =
      sq.1.examinedEdges.length ∧
    (findSymmetricalEdgesOnFaceStep md sq e).2.length +
      (findSymmetricalEdgesOnFaceStep md sq e).1.examinedEdges.count false ≤
      sq.2.length + sq.1.examinedEdges.count false := by
  unfold findSymmetricalEdgesOnFaceStep
  dsimp only
  split
  · exact ⟨rfl, Nat.le_refl _⟩
  · rename_i hexe
    split
    · exact ⟨rfl, Nat.le_refl _⟩
    · split
      · exact ⟨rfl, Nat.le_refl _⟩
      · have hstrict : (setI sq.1.examinedEdges e true).count false <
            sq.1.examinedEdges.count false :=
          count_false_setI_true_lt _ _ he.1 he.2 (by simpa using hexe)
        refine ⟨markE_length _ _ _, ?_⟩
        have hle2 := count_false_setI_true_le (setI sq.1.examinedEdges e true)
          ((intersection
            (getI md.vertexData defVD (getI sq.1.vertexSymmetryIndices (-1)
              (getI md.edgeData defED e).connectedVertices.1)).connectedEdges
            (getI md.vertexData defVD (getI sq.1.vertexSymmetryIndices (-1)
              (getI md.edgeData defED e).connectedVertices.2)).connectedEdges).headD (-1))
        unfold markSymmetricalEdges
        dsimp only
        split
        · simp only [List.length_append, List.length_cons, List.length_nil]
          omega
        · omega

theorem fseofFold_accounting (md : MeshData) (L : Nat) :
    ∀ (edges : List Int) (sq : PolySymmetryData × List (Int × Int)),
      (∀ e ∈ edges, 0 ≤ e ∧ e.toNat < L) →
      sq.1.examinedEdges.length = L →
      (edges.foldl (findSymmetricalEdgesOnFaceStep md) sq).1.examinedEdges.length = L ∧
      (edges.foldl (findSymmetricalEdgesOnFaceStep md) sq).2.length +
        (edges.foldl (findSymmetricalEdgesOnFaceStep md) sq).1.examinedEdges.count false ≤
        sq.2.length + sq.1.examinedEdges.count false := by
  intro edges
  induction edges with
  | nil => exact fun sq _ hlen => ⟨hlen, Nat.le_refl _⟩
  | cons e rest ih =>
    intro sq hmem hlen
    rw [List.foldl_cons]
    have he := hmem e (List.mem_cons_self e rest)
    have hstep := fseofStep_accounting md sq e ⟨he.1, by omega⟩
    have hrest := ih (findSymmetricalEdgesOnFaceStep md sq e)
      (fun x hx => hmem x (List.mem_cons_of_mem e hx)) (by omega)
    exact ⟨hrest.1, by omega⟩

/-- Well-formedness of the topology needed for termination: every edge
listed on a face is an in-range edge index. -/
def FaceEdgesWF (md : MeshData) : Prop :=
  ∀ fd ∈ md.faceData, ∀ e ∈ fd.connectedEdges, 0 ≤ e ∧ e.toNat < md.numberOfEdges

instance : DecidablePred FaceEdgesWF := fun md => by
  unfold FaceEdgesWF
  infer_instance

theorem fseof_accounting (md : MeshData) (hWF : FaceEdgesWF md)
    (s : PolySymmetryData) (q : List (Int × Int)) (f : Int)
    (hlen : s.examinedEdges.length = md.numberOfEdges) :
    (findSymmetricalEdgesOnFace md s q f).1.examinedEdges.length = md.numberOfEdges ∧
    (findSymmetricalEdgesOnFace md s q f).2.length +
      (findSymmetricalEdgesOnFace md s q f).1.examinedEdges.count false ≤
      q.length + s.examinedEdges.count false := by
  unfold findSymmetricalEdgesOnFace
  apply fseofFold_accounting md md.numberOfEdges _ (s, q) _ hlen
  intro e hef
  rcases getI_mem md.faceData defFD f with h | h
  · rw [h] at hef
    simp [defFD] at hef
  · exact hWF _ h e hef

/-- The propagation engine's worklist loop drains its queue within fuel
equal to the queue length plus the number of unexamined edges, and
performs at most that many dequeue iterations. -/
theorem findSymmetricalVerticesLoop_drain (md : MeshData) (hWF : FaceEdgesWF md) :
    ∀ (fuel : Nat) (q : List (Int × Int)) (s : PolySymmetryData),
      s.examinedEdges.length = md.numberOfEdges →
      q.length + s.examinedEdges.count false ≤ fuel →
      (findSymmetricalVerticesLoop md fuel q s).2.1 = [] ∧
      (findSymmetricalVerticesLoop md fuel q s).2.2 ≤
        q.length + s.examinedEdges.count false := by
  intro fuel
  induction fuel with
  | zero =>
    intro q s _ hmu
    have : q = [] := by
      cases q with
      | nil => rfl
      | cons a t => simp at hmu
    subst this
    exact ⟨rfl, Nat.zero_le _⟩
  | succ fuel ih =>
    intro q s hlen hfuel
    cases q with
    | nil => exact ⟨rfl, Nat.zero_le _⟩
    | cons p q =>
      simp only [List.length_cons] at hfuel
      rw [findSymmetricalVerticesLoop]
      dsimp only
      have hlen1 : (markSymmetricalEdges s p.1 p.2).examinedEdges.length =
          md.numberOfEdges := by rw [markE_length]; exact hlen
      have hcount1 := markE_count_le s p.1 p.2
      split
      · have := ih q (markSymmetricalEdges s p.1 p.2) hlen1 (by omega)
        exact ⟨this.1, by dsimp only; simp only [List.length_cons]; omega⟩
      · set s3 := findSymmetricalVerticesOnFace md
          (markSymmetricalFaces (markSymmetricalEdges s p.1 p.2)
            (getUnexaminedFaces md (markSymmetricalEdges s p.1 p.2) p).1
            (getUnexaminedFaces md (markSymmetricalEdges s p.1 p.2) p).2)
          (getUnexaminedFaces md (markSymmetricalEdges s p.1 p.2) p) with hs3
        set sq4 := findSymmetricalEdgesOnFace md s3 q
          (getUnexaminedFaces md (markSymmetricalEdges s p.1 p.2) p).1 with hsq4
        have hfaces2 : s3.examinedEdges = (markSymmetricalEdges s p.1 p.2).examinedEdges := by
          rw [hs3]
          exact (fsvof_edge_face_fields md _ _).1
        have hacc := fseof_accounting md hWF s3 q
          (getUnexaminedFaces md (markSymmetricalEdges s p.1 p.2) p).1
          (by rw [hfaces2]; exact hlen1)
        rw [← hsq4] at hacc
        rw [hfaces2] at hacc
        have hrec := ih sq4.2 sq4.1 hacc.1 (by omega)
        exact ⟨hrec.1, by dsimp only; simp only [List.length_cons]; omega⟩

/-- C7: for every topology whose face edge lists are in range, and any
seed, the propagation engine's worklist loop terminates: with the fuel
the engine supplies (`numberOfEdges + 1`) the FIFO queue is fully
drained, after at most `numberOfEdges + 1` dequeue iterations — every
pushed pair is marked examined in the same completion step and examined
edges are never pushed again, so pushes are bounded by the number of
edges. -/
theorem c7_engine_terminates (md : MeshData) (selection : ComponentSelection)
    (hWF : FaceEdgesWF md) :
    (findSymmetricalVertices md (reset md) selection).2.1 = [] ∧
    (findSymmetricalVertices md (reset md) selection).2.2 ≤ md.numberOfEdges + 1 := by
  unfold findSymmetricalVertices
  dsimp only
  have hpre : ∀ s0 : PolySymmetryData,
      s0.examinedEdges = (List.replicate md.numberOfEdges false) →
      (findFirstSymmetricalVertices md s0 selection).examinedEdges =
        List.replicate md.numberOfEdges false := by
    intro s0 h0
    rw [(findFirst_edge_fields md s0 selection).1]
    exact h0
  set s1 := if selection.leftVertexIndex ≠ -1 then
      { reset md with leftSideVertexIndices :=
          (reset md).leftSideVertexIndices ++ [selection.leftVertexIndex] }
    else reset md with hs1
  have hs1e : s1.examinedEdges = List.replicate md.numberOfEdges false := by
    rw [hs1]
    split <;> rfl
  have hmain := findSymmetricalVerticesLoop_drain md hWF (md.numberOfEdges + 1)
    [selection.edgeIndices] (findFirstSymmetricalVertices md s1 selection)
    (by rw [hpre s1 hs1e]; simp)
    (by rw [hpre s1 hs1e]; simp [List.count_replicate]; omega)

  refine ⟨hmain.1, ?_⟩
  refine Nat.le_trans hmain.2 ?_
  rw [hpre s1 hs1e]
  simp [List.count_replicate]
  omega

/-- Witness for the termination bound at a concrete input: the engine on
the two-shell quad mesh `mdW` with seed `selW` drains its queue in at
most 9 iterations. -/
theorem c7_engine_terminates_witness :
    FaceEdgesWF mdW ∧
    ((findSymmetricalVertices mdW (reset mdW) selW).2.1 = [] ∧
     (findSymmetricalVertices mdW (reset mdW) selW).2.2 ≤ mdW.numberOfEdges + 1) :=
  ⟨by decide, c7_engine_terminates mdW selW (by decide)⟩

/-! ### C1: the symmetry table as a partial involution -/

/-- The partial-involution invariant of one examined/symmetryIndex table:
every examined component maps to a partner that is examined and maps
back. -/
def PartialInvolution (exam : List Bool) (sym : List Int) : Prop :=
  ∀ a : Int, getI exam false a = true →
    getI sym (-1) (getI sym (-1) a) = a ∧
    getI exam false (getI sym (-1) a) = true

/-- Marking a pair preserves the partial involution when the pair is
either entirely fresh (both unexamined and in range) or already mutually
recorded. -/
theorem pairMark_involution (exam : List Bool) (sym : List Int) (a b : Int)
    (hinv : PartialInvolution exam sym)
    (hcond : (getI exam false a = false ∧ getI exam false b = false ∧
        0 ≤ a ∧ a.toNat < exam.length ∧ a.toNat < sym.length ∧
        0 ≤ b ∧ b.toNat < exam.length ∧ b.toNat < sym.length) ∨
      (getI sym (-1) a = b ∧ getI sym (-1) b = a ∧
        getI exam false a = true ∧ getI exam false b = true)) :
    PartialInvolution (setI (setI exam a true) b true) (setI (setI sym a b) b a) := by
  rcases hcond with ⟨hea, heb, ha0, ha1, ha2, hb0, hb1, hb2⟩ | ⟨hsa, hsb, hea, heb⟩
  · intro x hx
    have hsymb : getI (setI (setI sym a b) b a) (-1) b = a :=
      getI_setI_self _ _ _ _ hb0 (by rw [length_setI]; omega)
    have hexama : getI (setI (setI exam a true) b true) false a = true := by
      by_cases hab : a = b
      · rw [hab]
        exact getI_setI_self _ _ _ _ hb0 (by rw [length_setI]; omega)
      · rw [getI_setI_ne _ _ _ _ _ hab]
        exact getI_setI_self _ _ _ _ ha0 (by omega)
    have hexamb : getI (setI (setI exam a true) b true) false b = true :=
      getI_setI_self _ _ _ _ hb0 (by rw [length_setI]; omega)
    have hsyma : getI (setI (setI sym a b) b a) (-1) a = b := by
      by_cases hab : a = b
      · subst hab
        exact hsymb
      · rw [getI_setI_ne _ _ _ _ _ hab]
        exact getI_setI_self _ _ _ _ ha0 (by omega)
    by_cases hxb : x = b
    · subst hxb
      rw [hsymb]
      exact ⟨hsyma, hexama⟩
    · by_cases hxa : x = a
      · subst hxa
        rw [hsyma]
        exact ⟨hsymb, hexamb⟩
      · have hxe : getI exam false x = true := by
          rw [getI_setI_ne _ _ _ _ _ hxb, getI_setI_ne _ _ _ _ _ hxa] at hx
          exact hx
        obtain ⟨hy1, hy2⟩ := hinv x hxe
        have hya : getI sym (-1) x ≠ a := by
          intro h
          rw [h] at hy2
          rw [hy2] at hea
          simp at hea
        have hyb : getI sym (-1) x ≠ b := by
          intro h
          rw [h] at hy2
          rw [hy2] at heb
          simp at heb
        rw [getI_setI_ne _ _ _ _ _ hxb, getI_setI_ne _ _ _ _ _ hxa,
          getI_setI_ne _ _ _ _ _ hyb, getI_setI_ne _ _ _ _ _ hya, hy1]
        refine ⟨rfl, ?_⟩
        rw [getI_setI_ne _ _ _ _ _ hyb, getI_setI_ne _ _ _ _ _ hya]
        exact hy2
  · have h1 : setI (setI sym a b) b a = sym := by
      rw [setI_id sym a b (getI_default_swap _ _ _ _ hsa),
        setI_id sym b a (getI_default_swap _ _ _ _ hsb)]
    have h2 : setI (setI exam a true) b true = exam := by
      rw [setI_id exam a true (getI_default_swap _ _ _ _ hea),
        setI_id exam b true (getI_default_swap _ _ _ _ heb)]
    rw [h1, h2]
    exact hinv

/-- Well-formedness of the topology needed for the face-table invariant:
every face listed on an edge is an in-range face index. -/
def EdgeFacesWF (md : MeshData) : Prop :=
  ∀ ed ∈ md.edgeData, ∀ f ∈ ed.connectedFaces, 0 ≤ f ∧ f.toNat < md.numberOfFaces

instance : DecidablePred EdgeFacesWF := fun md => by
  unfold EdgeFacesWF
  infer_instance

/-- A face candidate produced by `getUnexaminedFaces` is either the `-1`
sentinel or an in-range, unexamined face. -/
def FaceOK (md : MeshData) (s : PolySymmetryData) (f : Int) : Prop :=
  f = -1 ∨ (0 ≤ f ∧ f.toNat < md.numberOfFaces ∧ getI s.examinedFaces false f = false)

theorem getUnexaminedFace_spec (md : MeshData) (s : PolySymmetryData) (e : Int) :
    getUnexaminedFace md s e = -1 ∨
    (getUnexaminedFace md s e ∈ (getI md.edgeData defED e).connectedFaces ∧
     getI s.examinedFaces false (getUnexaminedFace md s e) = false) := by
  unfold getUnexaminedFace
  rcases hf : (getI md.edgeData defED e).connectedFaces.find?
      (fun f => !(getI s.examinedFaces false f)) with _ | f
  · exact Or.inl rfl
  · refine Or.inr ⟨List.mem_of_find?_eq_some hf, ?_⟩
    have := List.find?_some hf
    simpa using this

theorem mem_edge_faces_ok (md : MeshData) (hWF : EdgeFacesWF md) (e f : Int)
    (hf : f ∈ (getI md.edgeData defED e).connectedFaces) :
    0 ≤ f ∧ f.toNat < md.numberOfFaces := by
  rcases getI_mem md.edgeData defED e with h | h
  · rw [h] at hf
    simp [defED] at hf
  · exact hWF _ h f hf

theorem scan_fold_inv (s : PolySymmetryData) (shared : List Int) :
    ∀ (l : List Int) (acc : Int × Int),
      (∀ x ∈ l, x ∈ shared) →
      (acc.1 = -1 ∨ (acc.1 ∈ shared ∧ getI s.examinedFaces false acc.1 = false)) →
      (acc.2 = -1 ∨ (acc.2 ∈ shared ∧ getI s.examinedFaces false acc.2 = false)) →
      ((l.foldl (getUnexaminedFacesScan s) acc).1 = -1 ∨
        ((l.foldl (getUnexaminedFacesScan s) acc).1 ∈ shared ∧
         getI s.examinedFaces false (l.foldl (getUnexaminedFacesScan s) acc).1 = false)) ∧
      ((l.foldl (getUnexaminedFacesScan s) acc).2 = -1 ∨
        ((l.foldl (getUnexaminedFacesScan s) acc).2 ∈ shared ∧
         getI s.examinedFaces false (l.foldl (getUnexaminedFacesScan s) acc).2 = false)) := by
  intro l
  induction l with
  | nil => exact fun acc _ h1 h2 => ⟨h1, h2⟩
  | cons x rest ih =>
    intro acc hmem h1 h2
    rw [List.foldl_cons]
    have hx := hmem x (List.mem_cons_self x rest)
    have hmem' : ∀ y ∈ rest, y ∈ shared := fun y hy => hmem y (List.mem_cons_of_mem x hy)
    unfold getUnexaminedFacesScan
    split
    · exact ih acc hmem' h1 h2
    · rename_i hunex
      have hxfalse : getI s.examinedFaces false x = false := by
        simpa using hunex
      split
      · exact ih _ hmem' (Or.inr ⟨hx, hxfalse⟩) h2
      · split
        · exact ih _ hmem' h1 (Or.inr ⟨hx, hxfalse⟩)
        · exact ih acc hmem' h1 h2

theorem getUnexaminedFaces_ok (md : MeshData) (hWF : EdgeFacesWF md)
    (s : PolySymmetryData) (p : Int × Int) :
    FaceOK md s (getUnexaminedFaces md s p).1 ∧
    FaceOK md s (getUnexaminedFaces md s p).2 := by
  unfold getUnexaminedFaces
  dsimp only
  split
  · have hsub : ∀ x ∈ intersection (getI md.edgeData defED p.1).connectedFaces
        (getI md.edgeData defED p.2).connectedFaces,
        x ∈ (getI md.edgeData defED p.1).connectedFaces := by
      intro x hx
      unfold intersection at hx
      exact (List.mem_filter.mp hx).1
    have := scan_fold_inv s (getI md.edgeData defED p.1).connectedFaces
      (intersection (getI md.edgeData defED p.1).connectedFaces
        (getI md.edgeData defED p.2).connectedFaces)
      (-1, -1) hsub (Or.inl rfl) (Or.inl rfl)
    constructor
    · rcases this.1 with h | ⟨hm, hu⟩
      · exact Or.inl h
      · exact Or.inr ⟨(mem_edge_faces_ok md hWF p.1 _ hm).1,
          (mem_edge_faces_ok md hWF p.1 _ hm).2, hu⟩
    · rcases this.2 with h | ⟨hm, hu⟩
      · exact Or.inl h
      · exact Or.inr ⟨(mem_edge_faces_ok md hWF p.1 _ hm).1,
          (mem_edge_faces_ok md hWF p.1 _ hm).2, hu⟩
  · constructor
    · rcases getUnexaminedFace_spec md s p.1 with h | ⟨hm, hu⟩
      · exact Or.inl h
      · exact Or.inr ⟨(mem_edge_faces_ok md hWF p.1 _ hm).1,
          (mem_edge_faces_ok md hWF p.1 _ hm).2, hu⟩
    · rcases getUnexaminedFace_spec md s p.2 with h | ⟨hm, hu⟩
      · exact Or.inl h
      · exact Or.inr ⟨(mem_edge_faces_ok md hWF p.2 _ hm).1,
          (mem_edge_faces_ok md hWF p.2 _ hm).2, hu⟩

theorem fseofStep_face_fields (md : MeshData)
    (sq : PolySymmetryData × List (Int × Int)) (e : Int) :
    (findSymmetricalEdgesOnFaceStep md sq e).1.examinedFaces = sq.1.examinedFaces ∧
    (findSymmetricalEdgesOnFaceStep md sq e).1.faceSymmetryIndices =
      sq.1.faceSymmetryIndices ∧
    (findSymmetricalEdgesOnFaceStep md sq e).1.examinedVertices =
      sq.1.examinedVertices ∧
    (findSymmetricalEdgesOnFaceStep md sq e).1.vertexSymmetryIndices =
      sq.1.vertexSymmetryIndices := by
  unfold findSymmetricalEdgesOnFaceStep
  dsimp only
  split
  · exact ⟨rfl, rfl, rfl, rfl⟩
  · split
    · exact ⟨rfl, rfl, rfl, rfl⟩
    · split
      · exact ⟨rfl, rfl, rfl, rfl⟩
      · exact ⟨rfl, rfl, rfl, rfl⟩

theorem fseofFold_face_fields (md : MeshData) :
    ∀ (edges : List Int) (sq : PolySymmetryData × List (Int × Int)),
      (edges.foldl (findSymmetricalEdgesOnFaceStep md) sq).1.examinedFaces =
        sq.1.examinedFaces ∧
      (edges.foldl (findSymmetricalEdgesOnFaceStep md) sq).1.faceSymmetryIndices =
        sq.1.faceSymmetryIndices ∧
      (edges.foldl (findSymmetricalEdgesOnFaceStep md) sq).1.examinedVertices =
        sq.1.examinedVertices ∧
      (edges.foldl (findSymmetricalEdgesOnFaceStep md) sq).1.vertexSymmetryIndices =
        sq.1.vertexSymmetryIndices := by
  intro edges
  induction edges with
  | nil => exact fun sq => ⟨rfl, rfl, rfl, rfl⟩
  | cons e rest ih =>
    intro sq
    rw [List.foldl_cons]
    have h1 := fseofStep_face_fields md sq e
    have h2 := ih (findSymmetricalEdgesOnFaceStep md sq e)
    exact ⟨h2.1.trans h1.1, h2.2.1.trans h1.2.1, h2.2.2.1.trans h1.2.2.1,
      h2.2.2.2.trans h1.2.2.2⟩

/-- The face-table invariant carried through the engine: the face table
is a partial involution and both face arrays have the topology's face
count. -/
def FaceTableInv (md : MeshData) (s : PolySymmetryData) : Prop :=
  PartialInvolution s.examinedFaces s.faceSymmetryIndices ∧
  s.examinedFaces.length = md.numberOfFaces ∧
  s.faceSymmetryIndices.length = md.numberOfFaces

theorem FaceTableInv_congr (md : MeshData) (s s' : PolySymmetryData)
    (h1 : s'.examinedFaces = s.examinedFaces)
    (h2 : s'.faceSymmetryIndices = s.faceSymmetryIndices)
    (h : FaceTableInv md s) : FaceTableInv md s' := by
  unfold FaceTableInv at *
  rw [h1, h2]
  exact h

theorem markF_faceTableInv (md : MeshData) (s : PolySymmetryData) (f0 f1 : Int)
    (h : FaceTableInv md s)
    (h0 : 0 ≤ f0 ∧ f0.toNat < md.numberOfFaces ∧
      getI s.examinedFaces false f0 = false)
    (h1 : 0 ≤ f1 ∧ f1.toNat < md.numberOfFaces ∧
      getI s.examinedFaces false f1 = false) :
    FaceTableInv md (markSymmetricalFaces s f0 f1) := by
  obtain ⟨hinv, hel, hsl⟩ := h
  refine ⟨?_, ?_, ?_⟩
  · exact pairMark_involution s.examinedFaces s.faceSymmetryIndices f0 f1 hinv
      (Or.inl ⟨h0.2.2, h1.2.2, h0.1, by omega, by omega, h1.1, by omega, by omega⟩)
  · show (setI (setI s.examinedFaces f0 true) f1 true).length = md.numberOfFaces
    rw [length_setI, length_setI]
    exact hel
  · show (setI (setI s.faceSymmetryIndices f0 f1) f1 f0).length = md.numberOfFaces
    rw [length_setI, length_setI]
    exact hsl

theorem fseof_face_fields (md : MeshData) (s : PolySymmetryData)
    (q : List (Int × Int)) (f : Int) :
    (findSymmetricalEdgesOnFace md s q f).1.examinedFaces = s.examinedFaces ∧
    (findSymmetricalEdgesOnFace md s q f).1.faceSymmetryIndices =
      s.faceSymmetryIndices ∧
    (findSymmetricalEdgesOnFace md s q f).1.examinedVertices = s.examinedVertices ∧
    (findSymmetricalEdgesOnFace md s q f).1.vertexSymmetryIndices =
      s.vertexSymmetryIndices := by
  unfold findSymmetricalEdgesOnFace
  exact fseofFold_face_fields md _ (s, q)

theorem fsvLoop_faceTableInv (md : MeshData) (hWF : EdgeFacesWF md) :
    ∀ (fuel : Nat) (q : List (Int × Int)) (s : PolySymmetryData),
      FaceTableInv md s →
      FaceTableInv md (findSymmetricalVerticesLoop md fuel q s).1 := by
  intro fuel
  induction fuel with
  | zero => exact fun q s h => h
  | succ fuel ih =>
    intro q s hs
    cases q with
    | nil => exact hs
    | cons p q =>
      rw [findSymmetricalVerticesLoop]
      dsimp only
      have hs1 : FaceTableInv md (markSymmetricalEdges s p.1 p.2) := hs
      split
      · exact ih q _ hs1
      · rename_i hfp
        push_neg at hfp
        have hok := getUnexaminedFaces_ok md hWF (markSymmetricalEdges s p.1 p.2) p
        have hok1 : 0 ≤ (getUnexaminedFaces md (markSymmetricalEdges s p.1 p.2) p).1 ∧
            (getUnexaminedFaces md (markSymmetricalEdges s p.1 p.2) p).1.toNat <
              md.numberOfFaces ∧
            getI (markSymmetricalEdges s p.1 p.2).examinedFaces false
              (getUnexaminedFaces md (markSymmetricalEdges s p.1 p.2) p).1 = false := by
          rcases hok.1 with h | h
          · exact absurd h hfp.1
          · exact h
        have hok2 : 0 ≤ (getUnexaminedFaces md (markSymmetricalEdges s p.1 p.2) p).2 ∧
            (getUnexaminedFaces md (markSymmetricalEdges s p.1 p.2) p).2.toNat <
              md.numberOfFaces ∧
            getI (markSymmetricalEdges s p.1 p.2).examinedFaces false
              (getUnexaminedFaces md (markSymmetricalEdges s p.1 p.2) p).2 = false := by
          rcases hok.2 with h | h
          · exact absurd h hfp.2
          · exact h
        have hs2 := markF_faceTableInv md (markSymmetricalEdges s p.1 p.2) _ _ hs1 hok1 hok2
        have hs3 : FaceTableInv md (findSymmetricalVerticesOnFace md
            (markSymmetricalFaces (markSymmetricalEdges s p.1 p.2)
              (getUnexaminedFaces md (markSymmetricalEdges s p.1 p.2) p).1
              (getUnexaminedFaces md (markSymmetricalEdges s p.1 p.2) p).2)
            (getUnexaminedFaces md (markSymmetricalEdges s p.1 p.2) p)) :=
          FaceTableInv_congr md _ _
            (fsvof_edge_face_fields md _ _).2.2.1
            (fsvof_edge_face_fields md _ _).2.2.2 hs2
        have hs4 : FaceTableInv md (findSymmetricalEdgesOnFace md
            (findSymmetricalVerticesOnFace md
              (markSymmetricalFaces (markSymmetricalEdges s p.1 p.2)
                (getUnexaminedFaces md (markSymmetricalEdges s p.1 p.2) p).1
                (getUnexaminedFaces md (markSymmetricalEdges s p.1 p.2) p).2)
              (getUnexaminedFaces md (markSymmetricalEdges s p.1 p.2) p)) q
            (getUnexaminedFaces md (markSymmetricalEdges s p.1 p.2) p).1).1 :=
          FaceTableInv_congr md _ _
            (fseof_face_fields md _ _ _).1
            (fseof_face_fields md _ _ _).2.1 hs3
        exact ih _ _ hs4

/-- Counterexample to C1 as stated: on the coherent mesh `mdC1` with seed
`selC1` (each seed vertex lies on its seed edge, each seed face on its
seed edge), the engine finishes with vertex 0 examined but
`symmetryIndex[symmetryIndex[0]] = 2 ≠ 0`: the seed-resolution step
re-paired the already-examined vertex 1. -/
theorem c1_counterexample :
    getI (findSymmetricalVertices mdC1 (reset mdC1) selC1).1.examinedVertices false 0 =
      true ∧
    (findSymmetricalVertices mdC1 (reset mdC1) selC1).1.vertexSymmetryIndices =
      [1, 2, 1] ∧
    getI (findSymmetricalVertices mdC1 (reset mdC1) selC1).1.vertexSymmetryIndices (-1)
      (getI (findSymmetricalVertices mdC1 (reset mdC1) selC1).1.vertexSymmetryIndices
        (-1) 0) ≠ 0 := by
  decide

/-- C1 (amended): after the propagation engine finishes, the face table
is always a partial involution (for any topology with in-range face lists
and in-range seed faces); and for vertices and edges each marking
preserves the partial involution whenever the pair is fresh (both
unexamined, in range) or already mutually recorded — a run that re-pairs
an examined component (as `findFirstSymmetricalVertices` can for a seed
whose "other endpoint" is already examined, and face edge completion can
for an already-paired edge) breaks the involution for the overwritten
partner. -/
theorem c1_symmetry_table_involution (md : MeshData) (sel : ComponentSelection)
    (hWF : EdgeFacesWF md)
    (hseedf : 0 ≤ sel.faceIndices.1 ∧ sel.faceIndices.1.toNat < md.numberOfFaces ∧
      0 ≤ sel.faceIndices.2 ∧ sel.faceIndices.2.toNat < md.numberOfFaces) :
    PartialInvolution (findSymmetricalVertices md (reset md) sel).1.examinedFaces
      (findSymmetricalVertices md (reset md) sel).1.faceSymmetryIndices ∧
    (∀ (s : PolySymmetryData) (a b : Int),
      PartialInvolution s.examinedVertices s.vertexSymmetryIndices →
      ((getI s.examinedVertices false a = false ∧
        getI s.examinedVertices false b = false ∧
        0 ≤ a ∧ a.toNat < s.examinedVertices.length ∧
        a.toNat < s.vertexSymmetryIndices.length ∧
        0 ≤ b ∧ b.toNat < s.examinedVertices.length ∧
        b.toNat < s.vertexSymmetryIndices.length) ∨
       (getI s.vertexSymmetryIndices (-1) a = b ∧
        getI s.vertexSymmetryIndices (-1) b = a ∧
        getI s.examinedVertices false a = true ∧
        getI s.examinedVertices false b = true)) →
      PartialInvolution (markSymmetricalVertices s a b).examinedVertices
        (markSymmetricalVertices s a b).vertexSymmetryIndices) ∧
    (∀ (s : PolySymmetryData) (a b : Int),
      PartialInvolution s.examinedEdges s.edgeSymmetryIndices →
      ((getI s.examinedEdges false a = false ∧
        getI s.examinedEdges false b = false ∧
        0 ≤ a ∧ a.toNat < s.examinedEdges.length ∧
        a.toNat < s.edgeSymmetryIndices.length ∧
        0 ≤ b ∧ b.toNat < s.examinedEdges.length ∧
        b.toNat < s.edgeSymmetryIndices.length) ∨
       (getI s.edgeSymmetryIndices (-1) a = b ∧
        getI s.edgeSymmetryIndices (-1) b = a ∧
        getI s.examinedEdges false a = true ∧
        getI s.examinedEdges false b = true)) →
      PartialInvolution (markSymmetricalEdges s a b).examinedEdges
        (markSymmetricalEdges s a b).edgeSymmetryIndices) := by
  refine ⟨?_, ?_, ?_⟩
  · unfold findSymmetricalVertices
    dsimp only
    set s1 := if sel.leftVertexIndex ≠ -1 then
        { reset md with leftSideVertexIndices :=
            (reset md).leftSideVertexIndices ++ [sel.leftVertexIndex] }
      else reset md with hs1
    have hs1f : s1.examinedFaces = List.replicate md.numberOfFaces false ∧
        s1.faceSymmetryIndices = List.replicate md.numberOfFaces (-1) := by
      rw [hs1]
      split <;> exact ⟨rfl, rfl⟩
    have hinv1 : FaceTableInv md s1 := by
      refine ⟨?_, by rw [hs1f.1]; simp, by rw [hs1f.2]; simp⟩
      intro a ha
      rw [hs1f.1] at ha
      rcases getI_replicate md.numberOfFaces false false a with h | h <;>
        rw [h] at ha <;> simp at ha
    have hfirst : FaceTableInv md (findFirstSymmetricalVertices md s1 sel) := by
      unfold findFirstSymmetricalVertices
      dsimp only
      have hmv : FaceTableInv md
          (markSymmetricalVertices s1 sel.vertexIndices.1 sel.vertexIndices.2) := hinv1
      have hmf : FaceTableInv md
          (markSymmetricalFaces
            (markSymmetricalVertices s1 sel.vertexIndices.1 sel.vertexIndices.2)
            sel.faceIndices.1 sel.faceIndices.2) := by
        apply markF_faceTableInv md _ _ _ hmv
        · refine ⟨hseedf.1, hseedf.2.1, ?_⟩
          show getI s1.examinedFaces false sel.faceIndices.1 = false
          rw [hs1f.1]
          rcases getI_replicate md.numberOfFaces false false sel.faceIndices.1 with h | h <;>
            exact h
        · refine ⟨hseedf.2.2.1, hseedf.2.2.2, ?_⟩
          show getI s1.examinedFaces false sel.faceIndices.2 = false
          rw [hs1f.1]
          rcases getI_replicate md.numberOfFaces false false sel.faceIndices.2 with h | h <;>
            exact h
      exact FaceTableInv_congr md _ _
        (fsvof_edge_face_fields md _ _).2.2.1
        (fsvof_edge_face_fields md _ _).2.2.2 hmf
    exact (fsvLoop_faceTableInv md hWF (md.numberOfEdges + 1) [sel.edgeIndices]
      (findFirstSymmetricalVertices md s1 sel) hfirst).1
  · intro s a b hinv hcond
    exact pairMark_involution s.examinedVertices s.vertexSymmetryIndices a b hinv hcond
  · intro s a b hinv hcond
    exact pairMark_involution s.examinedEdges s.edgeSymmetryIndices a b hinv hcond

/-- Witness for the amended C1 at a concrete input: the run on the
two-shell quad mesh `mdW` with seed `selW`. -/
theorem c1_symmetry_table_involution_witness :
    (EdgeFacesWF mdW ∧
     (0 ≤ selW.faceIndices.1 ∧ selW.faceIndices.1.toNat < mdW.numberOfFaces ∧
      0 ≤ selW.faceIndices.2 ∧ selW.faceIndices.2.toNat < mdW.numberOfFaces)) ∧
    (PartialInvolution (findSymmetricalVertices mdW (reset mdW) selW).1.examinedFaces
      (findSymmetricalVertices mdW (reset mdW) selW).1.faceSymmetryIndices ∧
     (∀ (s : PolySymmetryData) (a b : Int),
      PartialInvolution s.examinedVertices s.vertexSymmetryIndices →
      ((getI s.examinedVertices false a = false ∧
        getI s.examinedVertices false b = false ∧
        0 ≤ a ∧ a.toNat < s.examinedVertices.length ∧
        a.toNat < s.vertexSymmetryIndices.length ∧
        0 ≤ b ∧ b.toNat < s.examinedVertices.length ∧
        b.toNat < s.vertexSymmetryIndices.length) ∨
       (getI s.vertexSymmetryIndices (-1) a = b ∧
        getI s.vertexSymmetryIndices (-1) b = a ∧
        getI s.examinedVertices false a = true ∧
        getI s.examinedVertices false b = true)) →
      PartialInvolution (markSymmetricalVertices s a b).examinedVertices
        (markSymmetricalVertices s a b).vertexSymmetryIndices) ∧
     (∀ (s : PolySymmetryData) (a b : Int),
      PartialInvolution s.examinedEdges s.edgeSymmetryIndices →
      ((getI s.examinedEdges false a = false ∧
        getI s.examinedEdges false b = false ∧
        0 ≤ a ∧ a.toNat < s.examinedEdges.length ∧
        a.toNat < s.edgeSymmetryIndices.length ∧
        0 ≤ b ∧ b.toNat < s.examinedEdges.length ∧
        b.toNat < s.edgeSymmetryIndices.length) ∨
       (getI s.edgeSymmetryIndices (-1) a = b ∧
        getI s.edgeSymmetryIndices (-1) b = a ∧
        getI s.examinedEdges false a = true ∧
        getI s.examinedEdges false b = true)) →
      PartialInvolution (markSymmetricalEdges s a b).examinedEdges
        (markSymmetricalEdges s a b).edgeSymmetryIndices)) :=
  ⟨⟨by decide, by decide, by decide, by decide, by decide⟩,
    c1_symmetry_table_involution mdW selW (by decide)
      ⟨by decide, by decide, by decide, by decide⟩⟩

/-! ### C8: disconnected shells are untouched -/

theorem getI_eq_getElem {α : Type} (l : List α) (d : α) (i : Int)
    (h0 : 0 ≤ i) (hlt : i.toNat < l.length) : getI l d i = l[i.toNat] := by
  unfold getI
  rw [if_pos h0, List.getD_eq_getElem?_getD, List.getElem?_eq_getElem hlt]
  rfl

theorem mem_setI {α : Type} (l : List α) (i : Int) (v : α) (x : α)
    (h : x ∈ setI l i v) : x ∈ l ∨ x = v := by
  unfold setI at h
  split at h
  · exact List.mem_or_eq_of_mem_set h
  · exact Or.inl h

theorem headD_notB (l excl : List Int) (d : Int)
    (hl : ∀ x ∈ l, x ∉ excl) (hd : d ∉ excl) : l.headD d ∉ excl := by
  cases l with
  | nil => exact hd
  | cons a t => exact hl a (List.mem_cons_self a t)

/-- Separation of a sub-shell (VB, EB, FB): the sets are in range, no
component outside the sets is adjacent to a component inside them, and
components inside the sets have their incident vertices inside VB. -/
def ShellClosed (md : MeshData) (VB EB FB : List Int) : Prop :=
  (∀ v ∈ VB, 0 ≤ v ∧ v.toNat < md.numberOfVertices) ∧
  (∀ e ∈ EB, 0 ≤ e ∧ e.toNat < md.numberOfEdges) ∧
  (∀ f ∈ FB, 0 ≤ f ∧ f.toNat < md.numberOfFaces) ∧
  (∀ i : Nat, i < md.edgeData.length → (i : Int) ∉ EB →
    (getI md.edgeData defED (i : Int)).connectedVertices.1 ∉ VB ∧
    (getI md.edgeData defED (i : Int)).connectedVertices.2 ∉ VB ∧
    ∀ f ∈ (getI md.edgeData defED (i : Int)).connectedFaces, f ∉ FB) ∧
  (∀ i : Nat, i < md.faceData.length → (i : Int) ∉ FB →
    (∀ v ∈ (getI md.faceData defFD (i : Int)).connectedVertices, v ∉ VB) ∧
    (∀ e ∈ (getI md.faceData defFD (i : Int)).connectedEdges, e ∉ EB)) ∧
  (∀ i : Nat, i < md.vertexData.length → (i : Int) ∉ VB →
    (∀ e ∈ (getI md.vertexData defVD (i : Int)).connectedEdges, e ∉ EB) ∧
    (∀ l ∈ (getI md.vertexData defVD (i : Int)).faceVertexSiblings, ∀ u ∈ l, u ∉ VB) ∧
    (∀ u ∈ (getI md.vertexData defVD (i : Int)).connectedVertices, u ∉ VB)) ∧
  (∀ i : Nat, i < md.edgeData.length → (i : Int) ∈ EB →
    (getI md.edgeData defED (i : Int)).connectedVertices.1 ∈ VB ∧
    (getI md.edgeData defED (i : Int)).connectedVertices.2 ∈ VB) ∧
  (∀ i : Nat, i < md.faceData.length → (i : Int) ∈ FB →
    ∀ v ∈ (getI md.faceData defFD (i : Int)).connectedVertices, v ∈ VB)

instance (md : MeshData) (VB EB FB : List Int) : Decidable (ShellClosed md VB EB FB) := by
  unfold ShellClosed
  haveI d1 : Decidable (∀ i : Nat, i < md.edgeData.length → (i : Int) ∉ EB →
      (getI md.edgeData defED (i : Int)).connectedVertices.1 ∉ VB ∧
      (getI md.edgeData defED (i : Int)).connectedVertices.2 ∉ VB ∧
      ∀ f ∈ (getI md.edgeData defED (i : Int)).connectedFaces, f ∉ FB) :=
    Nat.decidableBallLT _ _
  haveI d2 : Decidable (∀ i : Nat, i < md.faceData.length → (i : Int) ∉ FB →
      (∀ v ∈ (getI md.faceData defFD (i : Int)).connectedVertices, v ∉ VB) ∧
      (∀ e ∈ (getI md.faceData defFD (i : Int)).connectedEdges, e ∉ EB)) :=
    Nat.decidableBallLT _ _
  haveI d3 : Decidable (∀ i : Nat, i < md.vertexData.length → (i : Int) ∉ VB →
      (∀ e ∈ (getI md.vertexData defVD (i : Int)).connectedEdges, e ∉ EB) ∧
      (∀ l ∈ (getI md.vertexData defVD (i : Int)).faceVertexSiblings, ∀ u ∈ l, u ∉ VB) ∧
      (∀ u ∈ (getI md.vertexData defVD (i : Int)).connectedVertices, u ∉ VB)) :=
    Nat.decidableBallLT _ _
  haveI d4 : Decidable (∀ i : Nat, i < md.edgeData.length → (i : Int) ∈ EB →
      (getI md.edgeData defED (i : Int)).connectedVertices.1 ∈ VB ∧
      (getI md.edgeData defED (i : Int)).connectedVertices.2 ∈ VB) :=
    Nat.decidableBallLT _ _
  haveI d5 : Decidable (∀ i : Nat, i < md.faceData.length → (i : Int) ∈ FB →
      ∀ v ∈ (getI md.faceData defFD (i : Int)).connectedVertices, v ∈ VB) :=
    Nat.decidableBallLT _ _
  infer_instance

theorem shellClosed_neg_one_vertex (md : MeshData) (VB EB FB : List Int)
    (hC : ShellClosed md VB EB FB) : (-1 : Int) ∉ VB := by
  intro h
  have := (hC.1 _ h).1
  omega

theorem shellClosed_neg_one_edge (md : MeshData) (VB EB FB : List Int)
    (hC : ShellClosed md VB EB FB) : (-1 : Int) ∉ EB := by
  intro h
  have := (hC.2.1 _ h).1
  omega

theorem shellClosed_neg_one_face (md : MeshData) (VB EB FB : List Int)
    (hC : ShellClosed md VB EB FB) : (-1 : Int) ∉ FB := by
  intro h
  have := (hC.2.2.1 _ h).1
  omega

theorem shell_edge_notB (md : MeshData) (VB EB FB : List Int)
    (hC : ShellClosed md VB EB FB) (e : Int) (he : e ∉ EB) :
    (getI md.edgeData defED e).connectedVertices.1 ∉ VB ∧
    (getI md.edgeData defED e).connectedVertices.2 ∉ VB ∧
    ∀ f ∈ (getI md.edgeData defED e).connectedFaces, f ∉ FB := by
  by_cases h : 0 ≤ e ∧ e.toNat < md.edgeData.length
  · have := hC.2.2.2.1 e.toNat h.2 (by rw [Int.toNat_of_nonneg h.1]; exact he)
    rwa [Int.toNat_of_nonneg h.1] at this
  · have hd : getI md.edgeData defED e = defED := by
      rcases Int.lt_or_le e 0 with h' | h'
      · exact getI_neg _ _ _ h'
      · exact getI_oob _ _ _ (by omega)
    rw [hd]
    refine ⟨shellClosed_neg_one_vertex md VB EB FB hC,
      shellClosed_neg_one_vertex md VB EB FB hC, ?_⟩
    intro f hf
    simp [defED] at hf

theorem shell_face_notB (md : MeshData) (VB EB FB : List Int)
    (hC : ShellClosed md VB EB FB) (f : Int) (hf : f ∉ FB) :
    (∀ v ∈ (getI md.faceData defFD f).connectedVertices, v ∉ VB) ∧
    (∀ e ∈ (getI md.faceData defFD f).connectedEdges, e ∉ EB) := by
  by_cases h : 0 ≤ f ∧ f.toNat < md.faceData.length
  · have := hC.2.2.2.2.1 f.toNat h.2 (by rw [Int.toNat_of_nonneg h.1]; exact hf)
    rwa [Int.toNat_of_nonneg h.1] at this
  · have hd : getI md.faceData defFD f = defFD := by
      rcases Int.lt_or_le f 0 with h' | h'
      · exact getI_neg _ _ _ h'
      · exact getI_oob _ _ _ (by omega)
    rw [hd]
    constructor <;> intro x hx <;> simp [defFD] at hx

theorem shell_vertex_notB (md : MeshData) (VB EB FB : List Int)
    (hC : ShellClosed md VB EB FB) (v : Int) (hv : v ∉ VB) :
    (∀ e ∈ (getI md.vertexData defVD v).connectedEdges, e ∉ EB) ∧
    (∀ l ∈ (getI md.vertexData defVD v).faceVertexSiblings, ∀ u ∈ l, u ∉ VB) ∧
    (∀ u ∈ (getI md.vertexData defVD v).connectedVertices, u ∉ VB) := by
  by_cases h : 0 ≤ v ∧ v.toNat < md.vertexData.length
  · have := hC.2.2.2.2.2.1 v.toNat h.2 (by rw [Int.toNat_of_nonneg h.1]; exact hv)
    rwa [Int.toNat_of_nonneg h.1] at this
  · have hd : getI md.vertexData defVD v = defVD := by
      rcases Int.lt_or_le v 0 with h' | h'
      · exact getI_neg _ _ _ h'
      · exact getI_oob _ _ _ (by omega)
    rw [hd]
    refine ⟨?_, ?_, ?_⟩ <;> intro x hx <;> simp [defVD] at hx

/-- The engine frame invariant: every component of the separated shell is
unexamined with partner `-1`, and no vertex table entry points into the
shell. -/
def EngineFrame (VB EB FB : List Int) (s : PolySymmetryData) : Prop :=
  (∀ v ∈ VB, getI s.examinedVertices false v = false ∧
    getI s.vertexSymmetryIndices (-1) v = -1) ∧
  (∀ e ∈ EB, getI s.examinedEdges false e = false ∧
    getI s.edgeSymmetryIndices (-1) e = -1) ∧
  (∀ f ∈ FB, getI s.examinedFaces false f = false ∧
    getI s.faceSymmetryIndices (-1) f = -1) ∧
  (∀ x ∈ s.vertexSymmetryIndices, x ∉ VB)

theorem markV_frame (VB EB FB : List Int) (s : PolySymmetryData) (a b : Int)
    (hI : EngineFrame VB EB FB s) (ha : a ∉ VB) (hb : b ∉ VB) :
    EngineFrame VB EB FB (markSymmetricalVertices s a b) := by
  obtain ⟨h1, h2, h3, h4⟩ := hI
  refine ⟨?_, h2, h3, ?_⟩
  · intro v hv
    have hva : v ≠ a := fun h => ha (h ▸ hv)
    have hvb : v ≠ b := fun h => hb (h ▸ hv)
    constructor
    · show getI (setI (setI s.examinedVertices a true) b true) false v = false
      rw [getI_setI_ne _ _ _ _ _ hvb, getI_setI_ne _ _ _ _ _ hva]
      exact (h1 v hv).1
    · show getI (setI (setI s.vertexSymmetryIndices a b) b a) (-1) v = -1
      rw [getI_setI_ne _ _ _ _ _ hvb, getI_setI_ne _ _ _ _ _ hva]
      exact (h1 v hv).2
  · intro x hx
    rcases mem_setI _ _ _ _ hx with hx' | rfl
    · rcases mem_setI _ _ _ _ hx' with hx'' | rfl
      · exact h4 x hx''
      · exact hb
    · exact ha

theorem markE_frame (VB EB FB : List Int) (s : PolySymmetryData) (a b : Int)
    (hI : EngineFrame VB EB FB s) (ha : a ∉ EB) (hb : b ∉ EB) :
    EngineFrame VB EB FB (markSymmetricalEdges s a b) := by
  obtain ⟨h1, h2, h3, h4⟩ := hI
  refine ⟨h1, ?_, h3, h4⟩
  intro e he
  have hea : e ≠ a := fun h => ha (h ▸ he)
  have heb : e ≠ b := fun h => hb (h ▸ he)
  constructor
  · show getI (setI (setI s.examinedEdges a true) b true) false e = false
    rw [getI_setI_ne _ _ _ _ _ heb, getI_setI_ne _ _ _ _ _ hea]
    exact (h2 e he).1
  · show getI (setI (setI s.edgeSymmetryIndices a b) b a) (-1) e = -1
    rw [getI_setI_ne _ _ _ _ _ heb, getI_setI_ne _ _ _ _ _ hea]
    exact (h2 e he).2

theorem markF_frame (VB EB FB : List Int) (s : PolySymmetryData) (a b : Int)
    (hI : EngineFrame VB EB FB s) (ha : a ∉ FB) (hb : b ∉ FB) :
    EngineFrame VB EB FB (markSymmetricalFaces s a b) := by
  obtain ⟨h1, h2, h3, h4⟩ := hI
  refine ⟨h1, h2, ?_, h4⟩
  intro f hf
  have hfa : f ≠ a := fun h => ha (h ▸ hf)
  have hfb : f ≠ b := fun h => hb (h ▸ hf)
  constructor
  · show getI (setI (setI s.examinedFaces a true) b true) false f = false
    rw [getI_setI_ne _ _ _ _ _ hfb, getI_setI_ne _ _ _ _ _ hfa]
    exact (h3 f hf).1
  · show getI (setI (setI s.faceSymmetryIndices a b) b a) (-1) f = -1
    rw [getI_setI_ne _ _ _ _ _ hfb, getI_setI_ne _ _ _ _ _ hfa]
    exact (h3 f hf).2

theorem frame_sym_notB (md : MeshData) (VB EB FB : List Int)
    (hC : ShellClosed md VB EB FB) (s : PolySymmetryData)
    (hI : EngineFrame VB EB FB s) (i : Int) :
    getI s.vertexSymmetryIndices (-1) i ∉ VB := by
  rcases getI_mem s.vertexSymmetryIndices (-1) i with h | h
  · rw [h]
    exact shellClosed_neg_one_vertex md VB EB FB hC
  · exact hI.2.2.2 _ h

theorem sibling_notB (md : MeshData) (VB EB FB : List Int)
    (hC : ShellClosed md VB EB FB) (s : PolySymmetryData) (v f : Int)
    (hv : v ∉ VB) :
    getUnexaminedVertexSibling md s v f ∉ VB := by
  unfold getUnexaminedVertexSibling
  rcases hf : (getI (getI md.vertexData defVD v).faceVertexSiblings [] f).find?
      (fun u => !(getI s.examinedVertices false u)) with _ | u
  · exact shellClosed_neg_one_vertex md VB EB FB hC
  · have hmem := List.mem_of_find?_eq_some hf
    rcases getI_mem (getI md.vertexData defVD v).faceVertexSiblings [] f with h | h
    · rw [h] at hmem
      simp at hmem
    · exact (shell_vertex_notB md VB EB FB hC v hv).2.1 _ h u hmem

theorem fsvofLoop_frame (md : MeshData) (VB EB FB : List Int)
    (hC : ShellClosed md VB EB FB) (facePair : Int × Int) :
    ∀ (fuel : Nat) (q : List Int) (s : PolySymmetryData),
      (∀ x ∈ q, x ∉ VB) → EngineFrame VB EB FB s →
      EngineFrame VB EB FB (findSymmetricalVerticesOnFaceLoop md facePair fuel q s) := by
  intro fuel
  induction fuel with
  | zero => exact fun q s _ h => h
  | succ fuel ih =>
    intro q s hq hI
    cases q with
    | nil => exact hI
    | cons v0 q =>
      rw [findSymmetricalVerticesOnFaceLoop]
      split
      · exact ih q s (fun x hx => hq x (List.mem_cons_of_mem v0 hx)) hI
      · have hn0 : getUnexaminedVertexSibling md s v0 facePair.1 ∉ VB :=
          sibling_notB md VB EB FB hC s v0 facePair.1 (hq v0 (List.mem_cons_self v0 q))
        have hv1 : getI s.vertexSymmetryIndices (-1) v0 ∉ VB :=
          frame_sym_notB md VB EB FB hC s hI v0
        have hn1 : getUnexaminedVertexSibling md s
            (getI s.vertexSymmetryIndices (-1) v0) facePair.2 ∉ VB :=
          sibling_notB md VB EB FB hC s _ facePair.2 hv1
        refine ih _ _ ?_ (markV_frame VB EB FB s _ _ hI hn0 hn1)
        intro x hx
        rcases List.mem_append.mp hx with hx | hx
        · exact hq x (List.mem_cons_of_mem v0 hx)
        · rw [List.mem_singleton.mp hx]
          exact hn0

theorem fsvof_frame (md : MeshData) (VB EB FB : List Int)
    (hC : ShellClosed md VB EB FB) (s : PolySymmetryData) (facePair : Int × Int)
    (hf1 : facePair.1 ∉ FB) (hI : EngineFrame VB EB FB s) :
    EngineFrame VB EB FB (findSymmetricalVerticesOnFace md s facePair) := by
  unfold findSymmetricalVerticesOnFace
  apply fsvofLoop_frame md VB EB FB hC facePair _ _ s _ hI
  intro x hx
  exact (shell_face_notB md VB EB FB hC facePair.1 hf1).1 x (List.mem_of_mem_filter hx)

theorem fseofStep_frame (md : MeshData) (VB EB FB : List Int)
    (hC : ShellClosed md VB EB FB)
    (sq : PolySymmetryData × List (Int × Int)) (e : Int)
    (he : e ∉ EB) (hI : EngineFrame VB EB FB sq.1)
    (hq : ∀ pr ∈ sq.2, pr.1 ∉ EB ∧ pr.2 ∉ EB) :
    EngineFrame VB EB FB (findSymmetricalEdgesOnFaceStep md sq e).1 ∧
    (∀ pr ∈ (findSymmetricalEdgesOnFaceStep md sq e).2, pr.1 ∉ EB ∧ pr.2 ∉ EB) := by
  unfold findSymmetricalEdgesOnFaceStep
  dsimp only
  split
  · exact ⟨hI, hq⟩
  · split
    · exact ⟨hI, hq⟩
    · split
      · exact ⟨hI, hq⟩
      · have hv0 : getI sq.1.vertexSymmetryIndices (-1)
            (getI md.edgeData defED e).connectedVertices.1 ∉ VB :=
          frame_sym_notB md VB EB FB hC sq.1 hI _
        have hshared : ∀ x ∈ intersection
            (getI md.vertexData defVD (getI sq.1.vertexSymmetryIndices (-1)
              (getI md.edgeData defED e).connectedVertices.1)).connectedEdges
            (getI md.vertexData defVD (getI sq.1.vertexSymmetryIndices (-1)
              (getI md.edgeData defED e).connectedVertices.2)).connectedEdges,
            x ∉ EB := by
          intro x hx
          have hx1 : x ∈ (getI md.vertexData defVD (getI sq.1.vertexSymmetryIndices (-1)
              (getI md.edgeData defED e).connectedVertices.1)).connectedEdges := by
            unfold intersection at hx
            exact (List.mem_filter.mp hx).1
          exact (shell_vertex_notB md VB EB FB hC _ hv0).1 x hx1
        have hidx : (intersection
            (getI md.vertexData defVD (getI sq.1.vertexSymmetryIndices (-1)
              (getI md.edgeData defED e).connectedVertices.1)).connectedEdges
            (getI md.vertexData defVD (getI sq.1.vertexSymmetryIndices (-1)
              (getI md.edgeData defED e).connectedVertices.2)).connectedEdges).headD
            (-1) ∉ EB :=
          headD_notB _ _ _ hshared (shellClosed_neg_one_edge md VB EB FB hC)
        refine ⟨markE_frame VB EB FB sq.1 _ _ hI he hidx, ?_⟩
        intro pr hpr
        dsimp only at hpr
        split at hpr
        · rcases List.mem_append.mp hpr with h | h
          · exact hq pr h
          · rw [List.mem_singleton.mp h]
            exact ⟨he, hidx⟩
        · exact hq pr hpr

theorem fseofFold_frame (md : MeshData) (VB EB FB : List Int)
    (hC : ShellClosed md VB EB FB) :
    ∀ (edges : List Int) (sq : PolySymmetryData × List (Int × Int)),
      (∀ e ∈ edges, e ∉ EB) → EngineFrame VB EB FB sq.1 →
      (∀ pr ∈ sq.2, pr.1 ∉ EB ∧ pr.2 ∉ EB) →
      EngineFrame VB EB FB (edges.foldl (findSymmetricalEdgesOnFaceStep md) sq).1 ∧
      (∀ pr ∈ (edges.foldl (findSymmetricalEdgesOnFaceStep md) sq).2,
        pr.1 ∉ EB ∧ pr.2 ∉ EB) := by
  intro edges
  induction edges with
  | nil => exact fun sq _ hI hq => ⟨hI, hq⟩
  | cons e rest ih =>
    intro sq hmem hI hq
    rw [List.foldl_cons]
    have hstep := fseofStep_frame md VB EB FB hC sq e
      (hmem e (List.mem_cons_self e rest)) hI hq
    exact ih _ (fun x hx => hmem x (List.mem_cons_of_mem e hx)) hstep.1 hstep.2

theorem getUnexaminedFaces_notB (md : MeshData) (VB EB FB : List Int)
    (hC : ShellClosed md VB EB FB) (s : PolySymmetryData) (p : Int × Int)
    (hp1 : p.1 ∉ EB) (hp2 : p.2 ∉ EB) :
    (getUnexaminedFaces md s p).1 ∉ FB ∧ (getUnexaminedFaces md s p).2 ∉ FB := by
  unfold getUnexaminedFaces
  dsimp only
  split
  · have hsub : ∀ x ∈ intersection (getI md.edgeData defED p.1).connectedFaces
        (getI md.edgeData defED p.2).connectedFaces,
        x ∈ (getI md.edgeData defED p.1).connectedFaces := by
      intro x hx
      unfold intersection at hx
      exact (List.mem_filter.mp hx).1
    have hinv := scan_fold_inv s (getI md.edgeData defED p.1).connectedFaces
      (intersection (getI md.edgeData defED p.1).connectedFaces
        (getI md.edgeData defED p.2).connectedFaces)
      (-1, -1) hsub (Or.inl rfl) (Or.inl rfl)
    constructor
    · rcases hinv.1 with h | ⟨hm, _⟩
      · rw [h]
        exact shellClosed_neg_one_face md VB EB FB hC
      · exact (shell_edge_notB md VB EB FB hC p.1 hp1).2.2 _ hm
    · rcases hinv.2 with h | ⟨hm, _⟩
      · rw [h]
        exact shellClosed_neg_one_face md VB EB FB hC
      · exact (shell_edge_notB md VB EB FB hC p.1 hp1).2.2 _ hm
  · constructor
    · rcases getUnexaminedFace_spec md s p.1 with h | ⟨hm, _⟩
      · rw [h]
        exact shellClosed_neg_one_face md VB EB FB hC
      · exact (shell_edge_notB md VB EB FB hC p.1 hp1).2.2 _ hm
    · rcases getUnexaminedFace_spec md s p.2 with h | ⟨hm, _⟩
      · rw [h]
        exact shellClosed_neg_one_face md VB EB FB hC
      · exact (shell_edge_notB md VB EB FB hC p.2 hp2).2.2 _ hm

theorem fsvLoop_frame (md : MeshData) (VB EB FB : List Int)
    (hC : ShellClosed md VB EB FB) :
    ∀ (fuel : Nat) (q : List (Int × Int)) (s : PolySymmetryData),
      (∀ pr ∈ q, pr.1 ∉ EB ∧ pr.2 ∉ EB) → EngineFrame VB EB FB s →
      EngineFrame VB EB FB (findSymmetricalVerticesLoop md fuel q s).1 := by
  intro fuel
  induction fuel with
  | zero => exact fun q s _ h => h
  | succ fuel ih =>
    intro q s hq hI
    cases q with
    | nil => exact hI
    | cons p q =>
      rw [findSymmetricalVerticesLoop]
      dsimp only
      have hp := hq p (List.mem_cons_self p q)
      have hqt : ∀ pr ∈ q, pr.1 ∉ EB ∧ pr.2 ∉ EB :=
        fun pr hpr => hq pr (List.mem_cons_of_mem p hpr)
      have hI1 : EngineFrame VB EB FB (markSymmetricalEdges s p.1 p.2) :=
        markE_frame VB EB FB s p.1 p.2 hI hp.1 hp.2
      split
      · exact ih q _ hqt hI1
      · have hfB := getUnexaminedFaces_notB md VB EB FB hC
          (markSymmetricalEdges s p.1 p.2) p hp.1 hp.2
        have hI2 := markF_frame VB EB FB (markSymmetricalEdges s p.1 p.2) _ _
          hI1 hfB.1 hfB.2
        have hI3 := fsvof_frame md VB EB FB hC _
          (getUnexaminedFaces md (markSymmetricalEdges s p.1 p.2) p) hfB.1 hI2
        have hedges : ∀ e ∈ (getI md.faceData defFD
            (getUnexaminedFaces md (markSymmetricalEdges s p.1 p.2) p).1).connectedEdges,
            e ∉ EB :=
          (shell_face_notB md VB EB FB hC _ hfB.1).2
        have hfold := fseofFold_frame md VB EB FB hC _
          (findSymmetricalVerticesOnFace md
            (markSymmetricalFaces (markSymmetricalEdges s p.1 p.2)
              (getUnexaminedFaces md (markSymmetricalEdges s p.1 p.2) p).1
              (getUnexaminedFaces md (markSymmetricalEdges s p.1 p.2) p).2)
            (getUnexaminedFaces md (markSymmetricalEdges s p.1 p.2) p), q)
          hedges hI3 hqt
        exact ih _ _ hfold.2 hfold.1

theorem findFirst_frame (md : MeshData) (VB EB FB : List Int)
    (hC : ShellClosed md VB EB FB) (s : PolySymmetryData) (sel : ComponentSelection)
    (hI : EngineFrame VB EB FB s)
    (hv1 : sel.vertexIndices.1 ∉ VB) (hv2 : sel.vertexIndices.2 ∉ VB)
    (he1 : sel.edgeIndices.1 ∉ EB) (he2 : sel.edgeIndices.2 ∉ EB)
    (hf1 : sel.faceIndices.1 ∉ FB) (hf2 : sel.faceIndices.2 ∉ FB) :
    EngineFrame VB EB FB (findFirstSymmetricalVertices md s sel) := by
  unfold findFirstSymmetricalVertices
  dsimp only
  have hI1 := markV_frame VB EB FB s _ _ hI hv1 hv2
  have hI2 := markF_frame VB EB FB _ sel.faceIndices.1 sel.faceIndices.2 hI1 hf1 hf2
  have hed1 := shell_edge_notB md VB EB FB hC sel.edgeIndices.1 he1
  have hed2 := shell_edge_notB md VB EB FB hC sel.edgeIndices.2 he2
  apply fsvof_frame md VB EB FB hC _ sel.faceIndices hf1
  apply markV_frame VB EB FB _ _ _ hI2
  · split
    · exact hed1.2.1
    · exact hed1.1
  · split
    · exact hed2.2.1
    · exact hed2.1

theorem fsvofLoop_untouched (md : MeshData) (facePair : Int × Int) :
    ∀ (fuel : Nat) (q : List Int) (s : PolySymmetryData),
      (findSymmetricalVerticesOnFaceLoop md facePair fuel q s).edgeSides = s.edgeSides ∧
      (findSymmetricalVerticesOnFaceLoop md facePair fuel q s).faceSides = s.faceSides ∧
      (findSymmetricalVerticesOnFaceLoop md facePair fuel q s).leftSideVertexIndices =
        s.leftSideVertexIndices := by
  intro fuel
  induction fuel with
  | zero => exact fun q s => ⟨rfl, rfl, rfl⟩
  | succ fuel ih =>
    intro q s
    cases q with
    | nil => exact ⟨rfl, rfl, rfl⟩
    | cons v q =>
      rw [findSymmetricalVerticesOnFaceLoop]
      split
      · exact ih q s
      · exact ih _ _

theorem fseofFold_untouched (md : MeshData) :
    ∀ (edges : List Int) (sq : PolySymmetryData × List (Int × Int)),
      (edges.foldl (findSymmetricalEdgesOnFaceStep md) sq).1.edgeSides =
        sq.1.edgeSides ∧
      (edges.foldl (findSymmetricalEdgesOnFaceStep md) sq).1.faceSides =
        sq.1.faceSides ∧
      (edges.foldl (findSymmetricalEdgesOnFaceStep md) sq).1.leftSideVertexIndices =
        sq.1.leftSideVertexIndices := by
  intro edges
  induction edges with
  | nil => exact fun sq => ⟨rfl, rfl, rfl⟩
  | cons e rest ih =>
    intro sq
    rw [List.foldl_cons]
    have h2 := ih (findSymmetricalEdgesOnFaceStep md sq e)
    have h1 : (findSymmetricalEdgesOnFaceStep md sq e).1.edgeSides = sq.1.edgeSides ∧
        (findSymmetricalEdgesOnFaceStep md sq e).1.faceSides = sq.1.faceSides ∧
        (findSymmetricalEdgesOnFaceStep md sq e).1.leftSideVertexIndices =
          sq.1.leftSideVertexIndices := by
      unfold findSymmetricalEdgesOnFaceStep
      dsimp only
      split
      · exact ⟨rfl, rfl, rfl⟩
      · split
        · exact ⟨rfl, rfl, rfl⟩
        · split
          · exact ⟨rfl, rfl, rfl⟩
          · exact ⟨rfl, rfl, rfl⟩
    exact ⟨h2.1.trans h1.1, h2.2.1.trans h1.2.1, h2.2.2.trans h1.2.2⟩

theorem fsvof_untouched (md : MeshData) (s : PolySymmetryData) (facePair : Int × Int) :
    (findSymmetricalVerticesOnFace md s facePair).edgeSides = s.edgeSides ∧
    (findSymmetricalVerticesOnFace md s facePair).faceSides = s.faceSides ∧
    (findSymmetricalVerticesOnFace md s facePair).leftSideVertexIndices =
      s.leftSideVertexIndices := by
  unfold findSymmetricalVerticesOnFace
  exact fsvofLoop_untouched md facePair _ _ s

theorem fseof_untouched (md : MeshData) (s : PolySymmetryData)
    (q : List (Int × Int)) (f : Int) :
    (findSymmetricalEdgesOnFace md s q f).1.edgeSides = s.edgeSides ∧
    (findSymmetricalEdgesOnFace md s q f).1.faceSides = s.faceSides ∧
    (findSymmetricalEdgesOnFace md s q f).1.leftSideVertexIndices =
      s.leftSideVertexIndices := by
  unfold findSymmetricalEdgesOnFace
  exact fseofFold_untouched md _ (s, q)

theorem fsvLoop_untouched (md : MeshData) :
    ∀ (fuel : Nat) (q : List (Int × Int)) (s : PolySymmetryData),
      (findSymmetricalVerticesLoop md fuel q s).1.edgeSides = s.edgeSides ∧
      (findSymmetricalVerticesLoop md fuel q s).1.faceSides = s.faceSides ∧
      (findSymmetricalVerticesLoop md fuel q s).1.leftSideVertexIndices =
        s.leftSideVertexIndices := by
  intro fuel
  induction fuel with
  | zero => exact fun q s => ⟨rfl, rfl, rfl⟩
  | succ fuel ih =>
    intro q s
    cases q with
    | nil => exact ⟨rfl, rfl, rfl⟩
    | cons p q =>
      rw [findSymmetricalVerticesLoop]
      dsimp only
      split
      · exact ih q _
      · have hrec := ih (findSymmetricalEdgesOnFace md
          (findSymmetricalVerticesOnFace md
            (markSymmetricalFaces (markSymmetricalEdges s p.1 p.2)
              (getUnexaminedFaces md (markSymmetricalEdges s p.1 p.2) p).1
              (getUnexaminedFaces md (markSymmetricalEdges s p.1 p.2) p).2)
            (getUnexaminedFaces md (markSymmetricalEdges s p.1 p.2) p)) q
          (getUnexaminedFaces md (markSymmetricalEdges s p.1 p.2) p).1).2
          (findSymmetricalEdgesOnFace md
            (findSymmetricalVerticesOnFace md
              (markSymmetricalFaces (markSymmetricalEdges s p.1 p.2)
                (getUnexaminedFaces md (markSymmetricalEdges s p.1 p.2) p).1
                (getUnexaminedFaces md (markSymmetricalEdges s p.1 p.2) p).2)
              (getUnexaminedFaces md (markSymmetricalEdges s p.1 p.2) p)) q
            (getUnexaminedFaces md (markSymmetricalEdges s p.1 p.2) p).1).1
        exact ⟨hrec.1.trans ((fseof_untouched md _ q _).1.trans
            (fsvof_untouched md _ _).1),
          hrec.2.1.trans ((fseof_untouched md _ q _).2.1.trans
            (fsvof_untouched md _ _).2.1),
          hrec.2.2.trans ((fseof_untouched md _ q _).2.2.trans
            (fsvof_untouched md _ _).2.2)⟩

theorem findFirst_untouched (md : MeshData) (s : PolySymmetryData)
    (sel : ComponentSelection) :
    (findFirstSymmetricalVertices md s sel).edgeSides = s.edgeSides ∧
    (findFirstSymmetricalVertices md s sel).faceSides = s.faceSides ∧
    (findFirstSymmetricalVertices md s sel).leftSideVertexIndices =
      s.leftSideVertexIndices := by
  unfold findFirstSymmetricalVertices
  dsimp only
  exact ⟨(fsvof_untouched md _ _).1, (fsvof_untouched md _ _).2.1,
    (fsvof_untouched md _ _).2.2⟩

theorem run_frame (md : MeshData) (VB EB FB : List Int) (sel : ComponentSelection)
    (hC : ShellClosed md VB EB FB)
    (hsel : sel.edgeIndices.1 ∉ EB ∧ sel.edgeIndices.2 ∉ EB ∧
      sel.faceIndices.1 ∉ FB ∧ sel.faceIndices.2 ∉ FB ∧
      sel.vertexIndices.1 ∉ VB ∧ sel.vertexIndices.2 ∉ VB) :
    EngineFrame VB EB FB (findSymmetricalVertices md (reset md) sel).1 := by
  unfold findSymmetricalVertices
  dsimp only
  have hreset : ∀ s0 : PolySymmetryData,
      s0.examinedVertices = List.replicate md.numberOfVertices false →
      s0.vertexSymmetryIndices = List.replicate md.numberOfVertices (-1) →
      s0.examinedEdges = List.replicate md.numberOfEdges false →
      s0.edgeSymmetryIndices = List.replicate md.numberOfEdges (-1) →
      s0.examinedFaces = List.replicate md.numberOfFaces false →
      s0.faceSymmetryIndices = List.replicate md.numberOfFaces (-1) →
      EngineFrame VB EB FB s0 := by
    intro s0 h1 h2 h3 h4 h5 h6
    refine ⟨?_, ?_, ?_, ?_⟩
    · intro v hv
      rw [h1, h2]
      constructor
      · rcases getI_replicate md.numberOfVertices false false v with h | h <;> exact h
      · rcases getI_replicate md.numberOfVertices (-1 : Int) (-1) v with h | h <;> exact h
    · intro e he
      rw [h3, h4]
      constructor
      · rcases getI_replicate md.numberOfEdges false false e with h | h <;> exact h
      · rcases getI_replicate md.numberOfEdges (-1 : Int) (-1) e with h | h <;> exact h
    · intro f hf
      rw [h5, h6]
      constructor
      · rcases getI_replicate md.numberOfFaces false false f with h | h <;> exact h
      · rcases getI_replicate md.numberOfFaces (-1 : Int) (-1) f with h | h <;> exact h
    · intro x hx
      rw [h2] at hx
      rw [List.eq_of_mem_replicate hx]
      exact shellClosed_neg_one_vertex md VB EB FB hC
  set s1 := if sel.leftVertexIndex ≠ -1 then
      { reset md with leftSideVertexIndices :=
          (reset md).leftSideVertexIndices ++ [sel.leftVertexIndex] }
    else reset md with hs1
  have hI1 : EngineFrame VB EB FB s1 := by
    rw [hs1]
    split <;> exact hreset _ rfl rfl rfl rfl rfl rfl
  apply fsvLoop_frame md VB EB FB hC
  · intro pr hpr
    rw [List.mem_singleton.mp hpr]
    exact ⟨hsel.1, hsel.2.1⟩
  · exact findFirst_frame md VB EB FB hC s1 sel hI1 hsel.2.2.2.2.1 hsel.2.2.2.2.2
      hsel.1 hsel.2.1 hsel.2.2.1 hsel.2.2.2.1

theorem run_leftSeeds (md : MeshData) (sel : ComponentSelection) :
    (findSymmetricalVertices md (reset md) sel).1.leftSideVertexIndices =
      (if sel.leftVertexIndex ≠ -1 then [sel.leftVertexIndex] else []) := by
  unfold findSymmetricalVertices
  dsimp only
  rw [(fsvLoop_untouched md _ _ _).2.2, (findFirst_untouched md _ sel).2.2]
  split <;> rfl

/-- Classifier frame: the side of every vertex of the separated shell
stays CENTER. -/
theorem leftLoop_sides_frame (md : MeshData) (VB EB FB : List Int)
    (hC : ShellClosed md VB EB FB) (vsym : List Int) :
    ∀ (fuel : Nat) (q : List Int) (visited : List Bool) (sides : List Int),
      (∀ x ∈ q, x ∉ VB) → (∀ v ∈ VB, getI sides 0 v = 0) →
      (∀ v ∈ VB, getI (findVertexSidesLeftLoop md vsym fuel q visited sides).2.1 0 v = 0) ∧
      (∀ x ∈ (findVertexSidesLeftLoop md vsym fuel q visited sides).2.2, x ∉ VB) := by
  intro fuel
  induction fuel with
  | zero => exact fun q visited sides hq hs => ⟨hs, hq⟩
  | succ fuel ih =>
    intro q visited sides hq hs
    cases q with
    | nil => exact ⟨hs, fun x hx => absurd hx (List.not_mem_nil x)⟩
    | cons u q =>
      have hu := hq u (List.mem_cons_self u q)
      have hqt : ∀ x ∈ q, x ∉ VB := fun x hx => hq x (List.mem_cons_of_mem u hx)
      have hwrite : ∀ c : Int, ∀ v ∈ VB, getI (setI sides u c) 0 v = 0 := by
        intro c v hv
        rw [getI_setI_ne _ _ _ _ _ (fun h => hu (by rw [← h]; exact hv))]
        exact hs v hv
      rw [findVertexSidesLeftLoop]
      dsimp only
      split
      · exact ih q visited sides hqt hs
      · split
        · exact ih q _ _ hqt (hwrite 0)
        · refine ih _ _ _ ?_ (hwrite 1)
          intro x hx
          rcases List.mem_append.mp hx with hx | hx
          · exact hqt x hx
          · exact (shell_vertex_notB md VB EB FB hC u hu).2.2 x
              (List.mem_of_mem_filter hx)

theorem rightLoop_sides_frame (md : MeshData) (VB EB FB : List Int)
    (hC : ShellClosed md VB EB FB) (vsym : List Int) :
    ∀ (fuel : Nat) (q : List Int) (visited : List Bool) (sides : List Int),
      (∀ x ∈ q, x ∉ VB) → (∀ v ∈ VB, getI sides 0 v = 0) →
      ∀ v ∈ VB, getI (findVertexSidesRightLoop md vsym fuel q visited sides).2.1 0 v = 0 := by
  intro fuel
  induction fuel with
  | zero => exact fun q visited sides hq hs => hs
  | succ fuel ih =>
    intro q visited sides hq hs
    cases q with
    | nil => exact hs
    | cons u q =>
      have hu := hq u (List.mem_cons_self u q)
      have hqt : ∀ x ∈ q, x ∉ VB := fun x hx => hq x (List.mem_cons_of_mem u hx)
      have hwrite : ∀ c : Int, ∀ v ∈ VB, getI (setI sides u c) 0 v = 0 := by
        intro c v hv
        rw [getI_setI_ne _ _ _ _ _ (fun h => hu (by rw [← h]; exact hv))]
        exact hs v hv
      rw [findVertexSidesRightLoop]
      dsimp only
      split
      · exact ih q visited sides hqt hs
      · split
        · exact ih q _ _ hqt (hwrite 0)
        · refine ih _ _ _ ?_ (hwrite (-1))
          intro x hx
          rcases List.mem_append.mp hx with hx | hx
          · exact hqt x hx
          · exact (shell_vertex_notB md VB EB FB hC u hu).2.2 x
              (List.mem_of_mem_filter hx)

theorem classifier_frame (md : MeshData) (VB EB FB : List Int)
    (hC : ShellClosed md VB EB FB) (vsym seeds : List Int)
    (hsym : ∀ x ∈ vsym, x ∉ VB) (hseeds : ∀ i ∈ seeds, i ∉ VB) :
    ∀ v ∈ VB, getI (findVertexSides md vsym seeds) 0 v = 0 := by
  have hsymI : ∀ i : Int, getI vsym (-1) i ∉ VB := by
    intro i
    rcases getI_mem vsym (-1) i with h | h
    · rw [h]
      exact shellClosed_neg_one_vertex md VB EB FB hC
    · exact hsym _ h
  unfold findVertexSides
  dsimp only
  have hseed1 : ∀ v ∈ VB,
      getI (seeds.foldl (fun sd i => setI sd i 1)
        (List.replicate md.numberOfVertices (0 : Int))) 0 v = 0 := by
    have : ∀ (xs sides : List Int), (∀ i ∈ xs, i ∉ VB) →
        (∀ v ∈ VB, getI sides 0 v = 0) →
        ∀ v ∈ VB, getI (xs.foldl (fun sd i => setI sd i 1) sides) 0 v = 0 := by
      intro xs
      induction xs with
      | nil => exact fun sides _ h => h
      | cons a t ih =>
        intro sides hxs h
        rw [List.foldl_cons]
        refine ih _ (fun i hi => hxs i (List.mem_cons_of_mem a hi)) ?_
        intro v hv
        rw [getI_setI_ne _ _ _ _ _ (fun he => hxs a (List.mem_cons_self a t)
          (by rw [← he]; exact hv))]
        exact h v hv
    refine this seeds _ hseeds ?_
    intro v hv
    rcases getI_replicate md.numberOfVertices (0 : Int) 0 v with h | h <;> exact h
  have hleft := leftLoop_sides_frame md VB EB FB hC vsym
    (seeds.length + md.numberOfVertices * (1 + maxAdj md) + 1) seeds
    (List.replicate md.numberOfVertices false) _ hseeds hseed1
  have hseed2 : ∀ v ∈ VB,
      getI (seeds.foldl (fun sd i => setI sd (getI vsym (-1) i) (-1))
        (findVertexSidesLeftLoop md vsym
          (seeds.length + md.numberOfVertices * (1 + maxAdj md) + 1) seeds
          (List.replicate md.numberOfVertices false)
          (seeds.foldl (fun sd i => setI sd i 1)
            (List.replicate md.numberOfVertices 0))).2.1) 0 v = 0 := by
    have : ∀ (xs sides : List Int),
        (∀ v ∈ VB, getI sides 0 v = 0) →
        ∀ v ∈ VB, getI (xs.foldl (fun sd i => setI sd (getI vsym (-1) i) (-1)) sides)
          0 v = 0 := by
      intro xs
      induction xs with
      | nil => exact fun sides h => h
      | cons a t ih =>
        intro sides h
        rw [List.foldl_cons]
        refine ih _ ?_
        intro v hv
        rw [getI_setI_ne _ _ _ _ _ (fun he => hsymI a (by rw [← he]; exact hv))]
        exact h v hv
    exact this seeds _ hleft.1
  apply rightLoop_sides_frame md VB EB FB hC vsym _ _ _ _ _ hseed2
  intro x hx
  rcases List.mem_append.mp hx with hx | hx
  · exact hleft.2 x hx
  · obtain ⟨i, _, rfl⟩ := List.mem_map.mp hx
    exact hsymI i

theorem finalize_edge_B (md : MeshData) (VB EB FB : List Int)
    (hC : ShellClosed md VB EB FB) (s : PolySymmetryData)
    (hlen_ed : md.edgeData.length = md.numberOfEdges)
    (hes : s.edgeSides.length = md.numberOfEdges)
    (hvsB : ∀ v ∈ VB, getI s.vertexSides 0 v = 0)
    (e : Int) (he : e ∈ EB) :
    getI (finalizeSymmetry md s).edgeSides 0 e = 0 := by
  have hrange := hC.2.1 e he
  have hcast : ((e.toNat : Nat) : Int) = e := Int.toNat_of_nonneg hrange.1
  rw [← hcast, finalizeSymmetry_edgeSides]
  refine getI_foldl_range (finalizeEdgeSidesStep md s.vertexSides) md.numberOfEdges 0
    (fun _ => 0)
    (fun es j h => by rw [finalizeEdgeSidesStep_length, h])
    (fun es j k h => finalizeEdgeSidesStep_ne md s.vertexSides es 0 j k h)
    e.toNat
    (fun es hlen hiL => ?_)
    md.numberOfEdges s.edgeSides hes hrange.2 hrange.2
  have hB := hC.2.2.2.2.2.2.1 e.toNat (by omega) (by rw [hcast]; exact he)
  unfold finalizeEdgeSidesStep
  dsimp only
  rw [hvsB _ hB.1, hvsB _ hB.2, if_pos ⟨rfl, rfl⟩]
  exact getI_setI_self _ _ _ _ (by omega) (by omega)

theorem finalize_face_B (md : MeshData) (VB EB FB : List Int)
    (hC : ShellClosed md VB EB FB) (s : PolySymmetryData)
    (hlen_fd : md.faceData.length = md.numberOfFaces)
    (hfs : s.faceSides.length = md.numberOfFaces)
    (hvsB : ∀ v ∈ VB, getI s.vertexSides 0 v = 0)
    (f : Int) (hf : f ∈ FB) :
    getI (finalizeSymmetry md s).faceSides 0 f = 0 := by
  have hrange := hC.2.2.1 f hf
  have hcast : ((f.toNat : Nat) : Int) = f := Int.toNat_of_nonneg hrange.1
  rw [← hcast, finalizeSymmetry_faceSides]
  refine getI_foldl_range (finalizeFaceSidesStep md s.vertexSides) md.numberOfFaces 0
    (fun _ => 0)
    (fun fs j h => by rw [finalizeFaceSidesStep_length, h])
    (fun fs j k h => finalizeFaceSidesStep_ne md s.vertexSides fs 0 j k h)
    f.toNat
    (fun fs hlen hiL => ?_)
    md.numberOfFaces s.faceSides hfs hrange.2 hrange.2
  have hB := hC.2.2.2.2.2.2.2 f.toNat (by omega) (by rw [hcast]; exact hf)
  have h1 : ¬((1 : Int) ∈ (getI md.faceData defFD ((f.toNat : Nat) : Int)).connectedVertices.map
      (getI s.vertexSides 0)) := by
    intro h
    obtain ⟨v, hv, hval⟩ := List.mem_map.mp h
    rw [hvsB v (hB v hv)] at hval
    norm_num at hval
  have h2 : ¬((-1 : Int) ∈ (getI md.faceData defFD ((f.toNat : Nat) : Int)).connectedVertices.map
      (getI s.vertexSides 0)) := by
    intro h
    obtain ⟨v, hv, hval⟩ := List.mem_map.mp h
    rw [hvsB v (hB v hv)] at hval
    norm_num at hval
  unfold finalizeFaceSidesStep
  dsimp only
  rw [getI_setI_self _ _ _ _ (by omega) (by omega)]
  rw [if_neg (by simpa using h1), if_neg (by simpa using h2)]
  norm_num

/-- C8: for a mesh with a separated (disconnected) sub-shell (VB, EB, FB)
and a seed entirely outside it, the full pipeline leaves every vertex,
edge and face of the sub-shell untouched: examined stays false, the
symmetry index stays the `-1` sentinel, and the derived side is CENTER
(0). -/
theorem c8_disconnected_shell (md : MeshData) (sel : ComponentSelection)
    (VB EB FB : List Int)
    (hC : ShellClosed md VB EB FB)
    (hlen_ed : md.edgeData.length = md.numberOfEdges)
    (hlen_fd : md.faceData.length = md.numberOfFaces)
    (hsel : sel.edgeIndices.1 ∉ EB ∧ sel.edgeIndices.2 ∉ EB ∧
      sel.faceIndices.1 ∉ FB ∧ sel.faceIndices.2 ∉ FB ∧
      sel.vertexIndices.1 ∉ VB ∧ sel.vertexIndices.2 ∉ VB ∧
      sel.leftVertexIndex ∉ VB) :
    (∀ v ∈ VB, getI (runPolySymmetry md sel).examinedVertices false v = false ∧
      getI (runPolySymmetry md sel).vertexSymmetryIndices (-1) v = -1 ∧
      getI (runPolySymmetry md sel).vertexSides 0 v = 0) ∧
    (∀ e ∈ EB, getI (runPolySymmetry md sel).examinedEdges false e = false ∧
      getI (runPolySymmetry md sel).edgeSymmetryIndices (-1) e = -1 ∧
      getI (runPolySymmetry md sel).edgeSides 0 e = 0) ∧
    (∀ f ∈ FB, getI (runPolySymmetry md sel).examinedFaces false f = false ∧
      getI (runPolySymmetry md sel).faceSymmetryIndices (-1) f = -1 ∧
      getI (runPolySymmetry md sel).faceSides 0 f = 0) := by
  have hframe := run_frame md VB EB FB sel hC
    ⟨hsel.1, hsel.2.1, hsel.2.2.1, hsel.2.2.2.1, hsel.2.2.2.2.1, hsel.2.2.2.2.2.1⟩
  have hseedsB : ∀ i ∈ (findSymmetricalVertices md (reset md) sel).1.leftSideVertexIndices,
      i ∉ VB := by
    rw [run_leftSeeds]
    split
    · intro i hi
      rw [List.mem_singleton.mp hi]
      exact hsel.2.2.2.2.2.2
    · intro i hi
      simp at hi
  have hcls := classifier_frame md VB EB FB hC
    (findSymmetricalVertices md (reset md) sel).1.vertexSymmetryIndices
    (findSymmetricalVertices md (reset md) sel).1.leftSideVertexIndices
    hframe.2.2.2 hseedsB
  have hes1 : (findSymmetricalVertices md (reset md) sel).1.edgeSides =
      List.replicate md.numberOfEdges (-1) := by
    unfold findSymmetricalVertices
    dsimp only
    rw [(fsvLoop_untouched md _ _ _).1, (findFirst_untouched md _ sel).1]
    split <;> rfl
  have hfs1 : (findSymmetricalVertices md (reset md) sel).1.faceSides =
      List.replicate md.numberOfFaces (-1) := by
    unfold findSymmetricalVertices
    dsimp only
    rw [(fsvLoop_untouched md _ _ _).2.1, (findFirst_untouched md _ sel).2.1]
    split <;> rfl
  have hes2 : (findSymmetricalVertices md (reset md) sel).1.edgeSides.length =
      md.numberOfEdges := by rw [hes1]; simp
  have hfs2 : (findSymmetricalVertices md (reset md) sel).1.faceSides.length =
      md.numberOfFaces := by rw [hfs1]; simp
  refine ⟨?_, ?_, ?_⟩
  · intro v hv
    exact ⟨(hframe.1 v hv).1, (hframe.1 v hv).2, hcls v hv⟩
  · intro e he
    refine ⟨(hframe.2.1 e he).1, (hframe.2.1 e he).2, ?_⟩
    exact finalize_edge_B md VB EB FB hC
      { (findSymmetricalVertices md (reset md) sel).1 with
        vertexSides := findVertexSides md
          (findSymmetricalVertices md (reset md) sel).1.vertexSymmetryIndices
          (findSymmetricalVertices md (reset md) sel).1.leftSideVertexIndices }
      hlen_ed hes2 hcls e he
  · intro f hf
    refine ⟨(hframe.2.2.1 f hf).1, (hframe.2.2.1 f hf).2, ?_⟩
    exact finalize_face_B md VB EB FB hC
      { (findSymmetricalVertices md (reset md) sel).1 with
        vertexSides := findVertexSides md
          (findSymmetricalVertices md (reset md) sel).1.vertexSymmetryIndices
          (findSymmetricalVertices md (reset md) sel).1.leftSideVertexIndices }
      hlen_fd hfs2 hcls f hf

theorem c8_disconnected_shell_witness :
    ShellClosed mdW [4, 5, 6, 7] [4, 5, 6, 7] [1] ∧
    ((∀ v ∈ ([4, 5, 6, 7] : List Int),
        getI (runPolySymmetry mdW selW).examinedVertices false v = false ∧
        getI (runPolySymmetry mdW selW).vertexSymmetryIndices (-1) v = -1 ∧
        getI (runPolySymmetry mdW selW).vertexSides 0 v = 0) ∧
      (∀ e ∈ ([4, 5, 6, 7] : List Int),
        getI (runPolySymmetry mdW selW).examinedEdges false e = false ∧
        getI (runPolySymmetry mdW selW).edgeSymmetryIndices (-1) e = -1 ∧
        getI (runPolySymmetry mdW selW).edgeSides 0 e = 0) ∧
      (∀ f ∈ ([1] : List Int),
        getI (runPolySymmetry mdW selW).examinedFaces false f = false ∧
        getI (runPolySymmetry mdW selW).faceSymmetryIndices (-1) f = -1 ∧
        getI (runPolySymmetry mdW selW).faceSides 0 f = 0)) :=
  ⟨by decide, c8_disconnected_shell mdW selW [4, 5, 6, 7] [4, 5, 6, 7] [1]
    (by decide) (by decide) (by decide) (by decide)⟩

end PolySymmetry
